import Mathlib

set_option maxHeartbeats 1000000

/-!
Verification development for `examples/addcomputer.py` (machine-account
lifecycle tool).  The tool's two engines (SAMR-over-RPC and LDAPS) are
embedded as traced, stateful, exception-raising computations over an
oracle describing the behaviour of the protocol collaborators.  Every
collaborator call and log line becomes an event in a trace, so that
properties about call ordering, teardown and fallback attempts can be
stated and proved.
-/

namespace AddComputer

/-! ### Python string primitives

The Python string methods used by the source (`lower`, `strip`, `split`,
`endswith`, negative indexing) are embedded as list-of-character
operations so that every definition evaluates by kernel reduction. -/

/-- ASCII lowering of one character (`str.lower` on the ASCII range the
source compares against). -/
def lowerChar (c : Char) : Char :=
  if c.toNat ≥ 65 ∧ c.toNat ≤ 90 then Char.ofNat (c.toNat + 32) else c

/-- Python `s.lower()`. -/
def strLower (s : String) : String := String.mk (s.toList.map lowerChar)

/-- Whitespace stripped by Python `str.strip`. -/
def isPySpace (c : Char) : Bool := c = ' ' ∨ c = '\t' ∨ c = '\n' ∨ c = '\r'

/-- Python `s.strip()` on the character list. -/
def stripChars (l : List Char) : List Char :=
  ((l.dropWhile isPySpace).reverse.dropWhile isPySpace).reverse

/-- Python `s.split(c)` on the character list. -/
def splitOnChar (c : Char) (l : List Char) : List (List Char) :=
  l.foldr
    (fun x acc =>
      if x = c then [] :: acc
      else
        match acc with
        | a :: rest => (x :: a) :: rest
        | [] => [[x]])
    [[]]

/-- Python `s.endswith(c)` for a single-character suffix. -/
def endsWithChar (s : String) (c : Char) : Bool := s.toList.getLast? = some c

/-- Result of a modelled computation: success, a raised Python exception,
or out of fuel (the source's unbounded probe loops are given fuel). -/
inductive Res (ε α : Type) where
  | ok (a : α)
  | err (e : ε)
  | oot
  deriving Repr, DecidableEq

/-- A traced, stateful, exception-raising computation: the shallow embedding
of a block of Python statements.  Applied to a state it returns the list of
collaborator calls and log lines performed, the final state and a result. -/
def Proc (ev σ ε α : Type) : Type := σ → List ev × σ × Res ε α

/-- Sequencing of two embedded statement blocks: exceptions and fuel
exhaustion short-circuit, traces concatenate. -/
def pbind {ev σ ε α β : Type} (m : Proc ev σ ε α) (f : α → Proc ev σ ε β) :
    Proc ev σ ε β := fun s =>
  match m s with
  | (tr, s2, Res.ok a) =>
      match f a s2 with
      | (tr2, s3, r) => (tr ++ tr2, s3, r)
  | (tr, s2, Res.err e) => (tr, s2, Res.err e)
  | (tr, s2, Res.oot) => (tr, s2, Res.oot)

/-- The embedded empty statement. -/
def ppure {ev σ ε α : Type} (a : α) : Proc ev σ ε α := fun s => ([], s, Res.ok a)

instance {ev σ ε : Type} : Monad (Proc ev σ ε) where
  pure := ppure
  bind := pbind

@[simp] theorem bind_def {ev σ ε α β : Type} (m : Proc ev σ ε α)
    (f : α → Proc ev σ ε β) : m >>= f = pbind m f := rfl

@[simp] theorem pure_def {ev σ ε α : Type} (a : α) :
    (pure a : Proc ev σ ε α) = ppure a := rfl

/-- Record an event (a log line) without touching state. -/
def emit {ev σ ε : Type} (e : ev) : Proc ev σ ε Unit := fun s => ([e], s, Res.ok ())

/-- The embedded `raise`. -/
def raise {ev σ ε α : Type} (x : ε) : Proc ev σ ε α := fun s => ([], s, Res.err x)

/-- A call to a protocol collaborator: the call event is always recorded,
and the collaborator's answer either becomes the value or is raised. -/
def callE {ev σ ε α : Type} (e : ev) (r : Except ε α) : Proc ev σ ε α :=
  fun s => ([e], s, match r with
    | Except.ok a => Res.ok a
    | Except.error x => Res.err x)

/-- Read the current state. -/
def getS {ev σ ε : Type} : Proc ev σ ε σ := fun s => ([], s, Res.ok s)

/-- The embedded `try ... except` block: `h` receives a raised exception. -/
def pcatch {ev σ ε α : Type} (m : Proc ev σ ε α) (h : ε → Proc ev σ ε α) :
    Proc ev σ ε α := fun s =>
  match m s with
  | (tr, s2, Res.err e) =>
      match h e s2 with
      | (tr2, s3, r) => (tr ++ tr2, s3, r)
  | out => out

/-! ## Identity/config resolution (`ADDCOMPUTER.__init__`) -/

/-- Raw command-line option values handed to the `ADDCOMPUTER` constructor
(identity arguments merged in; hash/AES handling not modelled as no claim
touches it). -/
structure Options where
  username : String
  password : String
  domain : String
  k : Bool
  dc_host : Option String
  dc_ip : Option String
  computer_name : Option String
  computer_pass : Option String
  method : String
  port : Option Nat
  domain_netbios : Option String
  no_add : Bool
  delete : Bool
  baseDN : Option String
  computer_group : Option String
  deriving Repr, DecidableEq

/-- The resolved operation descriptor: the `self.__*` fields of
`ADDCOMPUTER` after `__init__` returns. -/
structure Descriptor where
  username : String
  password : String
  domain : String
  target : String
  targetIp : Option String
  kdcHost : Option String
  port : Nat
  method : String
  domainNetbios : String
  computerName : Option String
  computerPassword : String
  noAdd : Bool
  delete : Bool
  baseDN : Option String
  computerGroup : Option String
  doKerberos : Bool
  deriving Repr, DecidableEq

/-- Normalisation of a supplied computer name (`__init__` lines 101-103):
Python evaluates `self.__computerName[-1]`, which on the empty string
raises `IndexError` (modelled as `none`); otherwise a missing trailing
marker is appended. -/
def resolveComputerName (name : String) : Option String :=
  match name.toList.getLast? with
  | none => none
  | some c => if c = '$' then some name else some (name ++ "$")

/-- Alphabet of generated computer passwords:
`string.ascii_letters + string.digits`. -/
def passwordAlphabet : List Char :=
  "abcdefghijklmnopqrstuvwxyzABCDEFGHIJKLMNOPQRSTUVWXYZ0123456789".toList

/-- Generated 32-character random password; `choice` stands for the random
draws of `random.choice`. -/
def generatePassword (choice : Nat → Nat) : String :=
  String.mk ((List.range 32).map (fun i => passwordAlphabet.getD (choice i % 62) 'a'))

/-- Base-DN derivation (`__init__` lines 122-129): `dc=` component per
dot-separated domain part, trailing comma removed. -/
def deriveBaseDN (domain : String) : String :=
  (((splitOnChar '.' domain.toList).map String.mk).foldl
    (fun acc p => acc ++ "dc=" ++ p ++ ",") "").dropRight 1

/-- Remaining defaulting steps of `__init__` (lines 105-132), applied once
the option-combination checks have passed. -/
def finishDescriptor (opts : Options) (pwChoice : Nat → Nat) (kdcHost : Option String)
    (cname : Option String) : Descriptor :=
  let computerPassword :=
    match opts.computer_pass with
    | some p => p
    | none => generatePassword pwChoice
  let target :=
    match opts.dc_host with
    | some t => t
    | none => opts.domain
  let port :=
    match opts.port with
    | some p => p
    | none => if opts.method = "SAMR" then 445 else 636
  let domainNetbios := (opts.domain_netbios).getD opts.domain
  let baseDN :=
    match opts.baseDN with
    | some b => some b
    | none => if opts.method = "LDAPS" then some (deriveBaseDN opts.domain) else none
  let computerGroup :=
    match opts.computer_group with
    | some g => some g
    | none => if opts.method = "LDAPS" then some ("CN=Computers," ++ baseDN.getD "") else none
  { username := opts.username
    password := opts.password
    domain := opts.domain
    target := target
    targetIp := opts.dc_ip
    kdcHost := kdcHost
    port := port
    method := opts.method
    domainNetbios := domainNetbios
    computerName := cname
    computerPassword := computerPassword
    noAdd := opts.no_add
    delete := opts.delete
    baseDN := baseDN
    computerGroup := computerGroup
    doKerberos := opts.k }

/-- The `ADDCOMPUTER.__init__` resolution: validity checks in source order
(lines 84-103), then defaulting.  A `ValueError` becomes `Except.error`
with the source's message. -/
def resolveDescriptor (opts : Options) (pwChoice : Nat → Nat) : Except String Descriptor :=
  let kdcHost := if opts.dc_ip.isSome then opts.dc_ip else opts.dc_host
  if opts.method ≠ "SAMR" ∧ opts.method ≠ "LDAPS" then
    Except.error ("Unsupported method " ++ opts.method)
  else if opts.k ∧ opts.dc_host = none then
    Except.error "Kerberos auth requires DNS name of the target DC. Use -dc-host."
  else
    match opts.computer_name with
    | none =>
        if opts.no_add then
          Except.error "You have to provide a computer name when using -no-add."
        else if opts.delete then
          Except.error "You have to provide a computer name when using -delete."
        else Except.ok (finishDescriptor opts pwChoice kdcHost none)
    | some n =>
        match resolveComputerName n with
        | none => Except.error "string index out of range"
        | some rn => Except.ok (finishDescriptor opts pwChoice kdcHost (some rn))

/-! ## Generated computer names (`generateComputerName`) -/

/-- Alphabet of generated computer names:
`string.ascii_uppercase + string.digits`. -/
def samAlphabet : List Char := "ABCDEFGHIJKLMNOPQRSTUVWXYZ0123456789".toList

/-- One draw of `random.choice(string.ascii_uppercase + string.digits)`. -/
def pickChar (n : Nat) : Char := samAlphabet.getD (n % 36) 'A'

/-- `ADDCOMPUTER.generateComputerName`: `DESKTOP-`, eight random draws from
the uppercase/digit alphabet, then the trailing marker. -/
def generateComputerName (choice : Nat → Nat) : String :=
  "DESKTOP-" ++ String.mk ((List.range 8).map (fun i => pickChar (choice i))) ++ "$"

/-! ## RPC account engine (`run_samr` / `doSAMRAdd`) -/

/-- Exceptions of the RPC path: a protocol-level `DCERPCSessionError`
carrying a numeric code, or any other Python exception carrying its
message. -/
inductive SamrExn where
  | sessionError (code : Nat)
  | generalExn (msg : String)
  deriving Repr, DecidableEq

/-- Modelled from the spec: `str(e)` of a collaborator protocol error
renders its numeric code; a plain exception renders its message. -/
def exnMsg : SamrExn → String
  | SamrExn.sessionError c => "DCERPC SessionError: code: " ++ toString c
  | SamrExn.generalExn m => m

/-- Observable events of the RPC engine: one per collaborator call made
plus the log lines it emits. -/
inductive Ev where
  | heptMap
  | connect
  | bindIface
  | connect5
  | enumDomains
  | lookupDomain (name : String)
  | openDomain (sid : Nat)
  | lookupNames (name : String)
  | openUser (access rid : Nat)
  | createUser (name : String)
  | deleteUser (h : Nat)
  | setPassword (h : Nat)
  | setInfo (h : Nat)
  | closeHandle (h : Nat)
  | disconnect
  | logCritical (msg : String)
  | logError (msg : String)
  | logInfo (msg : String)
  deriving Repr, DecidableEq

/-- Mutable local state of `doSAMRAdd`: the three nested handles, the
(descriptor) computer name — which the probe loop reassigns — and a count
of name-lookup calls made so far (the directory server is stateful, so the
oracle's lookup answers are indexed by call order). -/
structure St where
  servHandle : Option Nat := none
  domainHandle : Option Nat := none
  userHandle : Option Nat := none
  computerName : Option String := none
  lk : Nat := 0
  deriving Repr, DecidableEq

/-- Behaviour of the RPC collaborators for one run: each field gives the
answer to the corresponding call.  `lookupNamesR` is indexed by how many
name lookups happened before (the server's state evolves); `choices`
supplies the random draws of the i-th generated name. -/
structure SamrOracle where
  heptMapR : Except SamrExn Unit
  connectR : Except SamrExn Unit
  bindR : Except SamrExn Unit
  connect5R : Except SamrExn Nat
  enumDomainsR : Except SamrExn (List String)
  lookupDomainR : String → Except SamrExn Nat
  openDomainR : Nat → Except SamrExn Nat
  lookupNamesR : Nat → String → Except SamrExn Nat
  openUserR : Nat → Nat → Except SamrExn Nat
  createUserR : String → Except SamrExn Nat
  deleteUserR : Nat → Except SamrExn Unit
  setPasswordR : Nat → Except SamrExn Unit
  setInfoR : Nat → Except SamrExn Unit
  closeHandleR : Nat → Except SamrExn Unit
  disconnectR : Except SamrExn Unit
  choices : Nat → Nat → Nat

/-- Computations of the RPC engine. -/
abbrev SProc (α : Type) : Type := Proc Ev St SamrExn α

/-- Modelled from the spec: numeric access-mask constant of the
account-management collaborator (value opaque to the engine logic). -/
def DELETE : Nat := 0x10000

/-- Modelled from the spec: access right to force a password change. -/
def USER_FORCE_PASSWORD_CHANGE : Nat := 0x40

/-- Modelled from the spec: maximal-rights access mask. -/
def MAXIMUM_ALLOWED : Nat := 0x2000000

/-- Store the server handle. -/
def setServ (h : Option Nat) : SProc Unit :=
  fun s => ([], { s with servHandle := h }, Res.ok ())

/-- Store the domain handle. -/
def setDom (h : Option Nat) : SProc Unit :=
  fun s => ([], { s with domainHandle := h }, Res.ok ())

/-- Store the user handle. -/
def setUser (h : Option Nat) : SProc Unit :=
  fun s => ([], { s with userHandle := h }, Res.ok ())

/-- Reassign `self.__computerName`. -/
def setName (n : Option String) : SProc Unit :=
  fun s => ([], { s with computerName := n }, Res.ok ())

/-- A `hSamrLookupNamesInDomain` call: records the event, bumps the lookup
counter and returns/raises the oracle's indexed answer. -/
def samrLookupNames (o : SamrOracle) (name : String) : SProc Nat := fun s =>
  ([Ev.lookupNames name], { s with lk := s.lk + 1 },
    match o.lookupNamesR s.lk name with
    | Except.ok v => Res.ok v
    | Except.error e => Res.err e)

/-- Source message for an account that already exists. -/
def msgAlreadyExists (name : String) : String :=
  "Account " ++ name ++ " already exists! If you just want to set a password, use -no-add."

/-- Source message for an account missing from the selected domain. -/
def msgNotFoundSamr (name dom : String) : String :=
  "Account " ++ name ++ " not found in domain " ++ dom ++ "!"

/-- Source message for a denied user-handle open. -/
def msgNoRight (user message name : String) : String :=
  "User " ++ user ++ " doesn\x27t have right to " ++ message ++ " " ++ name ++ "!"

/-- The `for domain in domains: logging.error(" * %s" % domain)` listing. -/
def logDomains : List String → SProc Unit
  | [] => ppure ()
  | d :: ds => do
      emit (Ev.logError (" * " ++ d))
      logDomains ds

/-- The name-generation/existence-probe loop of `doSAMRAdd` (lines
415-424): generate a name, store it in the descriptor, look it up; a
successful lookup means the name is taken and the loop repeats, a
`0xc0000073` protocol error means the name is unused, any other error
re-raises. -/
def samrProbeLoop (o : SamrOracle) : Nat → Nat → SProc String
  | 0, _ => fun s => ([], s, Res.oot)
  | Nat.succ fuel, i => do
      let name := generateComputerName (o.choices i)
      setName (some name)
      let taken ← pcatch
        (do let _ ← samrLookupNames o name
            ppure true)
        (fun e =>
          match e with
          | SamrExn.sessionError c =>
              if c = 0xc0000073 then ppure false else raise (SamrExn.sessionError c)
          | e2 => raise e2)
      if taken then samrProbeLoop o fuel (i + 1) else ppure name

/-- Domain selection of `doSAMRAdd` (lines 355-371): filter out the
built-in domain; with more than one candidate left, the configured
NetBIOS name must match exactly one enumerated domain, else the run is
aborted after listing the domains. -/
def samrSelectDomain (cfg : Descriptor) (domains : List String) : SProc String := do
  let domainsWithoutBuiltin := domains.filter (fun d => strLower d ≠ "builtin")
  if domainsWithoutBuiltin.length > 1 then
    let matched := domains.filter (fun d => strLower d = cfg.domainNetbios)
    if matched.length ≠ 1 then do
      emit (Ev.logCritical ("This server provides multiple domains and \x27" ++
        cfg.domainNetbios ++ "\x27 isn\x27t one of them."))
      emit (Ev.logCritical "Available domain(s):")
      logDomains domains
      emit (Ev.logCritical "Consider using -domain-netbios argument to specify which one you meant.")
      raise (SamrExn.generalExn "")
    else ppure (matched.headD "")
  else
    match domainsWithoutBuiltin with
    | [] => raise (SamrExn.generalExn "list index out of range")
    | d :: _ => ppure d

/-- User lookup/open/create phase of `doSAMRAdd` (lines 382-427). -/
def samrUserPhase (cfg : Descriptor) (o : SamrOracle) (fuel : Nat)
    (selectedDomain : String) : SProc Unit :=
  if cfg.noAdd || cfg.delete then do
    let name := (← getS).computerName.getD ""
    let userRID ← pcatch (samrLookupNames o name)
      (fun e =>
        match e with
        | SamrExn.sessionError c =>
            if c = 0xc0000073 then
              raise (SamrExn.generalExn (msgNotFoundSamr name selectedDomain))
            else raise (SamrExn.sessionError c)
        | e2 => raise e2)
    let access := if cfg.delete then DELETE else USER_FORCE_PASSWORD_CHANGE
    let message := if cfg.delete then "delete" else "set password for"
    let uh ← pcatch (callE (Ev.openUser access userRID) (o.openUserR access userRID))
      (fun e =>
        match e with
        | SamrExn.sessionError c =>
            if c = 0xc0000022 then
              raise (SamrExn.generalExn (msgNoRight cfg.username message name))
            else raise (SamrExn.sessionError c)
        | e2 => raise e2)
    setUser (some uh)
  else do
    let _ ←
      (match cfg.computerName with
      | some name =>
          pcatch
            (do let _ ← samrLookupNames o name
                raise (SamrExn.generalExn (msgAlreadyExists name)))
            (fun e =>
              match e with
              | SamrExn.sessionError c =>
                  if c ≠ 0xc0000073 then raise (SamrExn.sessionError c) else ppure ()
              | e2 => raise e2)
      | none => do
          let _ ← samrProbeLoop o fuel 0
          ppure ())
    let name := (← getS).computerName.getD ""
    let hc ← callE (Ev.createUser name) (o.createUserR name)
    setUser (some hc)

/-- Final mutation phase of `doSAMRAdd` (lines 429-446): delete the user,
or set its password and — for Create — re-open it with maximal rights and
set the workstation-trust control flag. -/
def samrFinishPhase (cfg : Descriptor) (o : SamrOracle) : SProc Unit :=
  if cfg.delete then do
    let uh := (← getS).userHandle.getD 0
    let _ ← callE (Ev.deleteUser uh) (o.deleteUserR uh)
    emit (Ev.logInfo ("Successfully deleted " ++ ((← getS).computerName.getD "") ++ "."))
    setUser none
  else do
    let uh := (← getS).userHandle.getD 0
    let _ ← callE (Ev.setPassword uh) (o.setPasswordR uh)
    if cfg.noAdd then
      emit (Ev.logInfo ("Successfully set password of " ++ ((← getS).computerName.getD "") ++
        " to " ++ cfg.computerPassword ++ "."))
    else do
      let name := (← getS).computerName.getD ""
      let userRID ← samrLookupNames o name
      let hr ← callE (Ev.openUser MAXIMUM_ALLOWED userRID) (o.openUserR MAXIMUM_ALLOWED userRID)
      setUser (some hr)
      let _ ← callE (Ev.setInfo hr) (o.setInfoR hr)
      emit (Ev.logInfo ("Successfully added machine account " ++ name ++
        " with password " ++ cfg.computerPassword ++ "."))

/-- `doSAMRAdd` try-body after domain selection (lines 373-446). -/
def samrWithDomain (cfg : Descriptor) (o : SamrOracle) (fuel : Nat)
    (selectedDomain : String) : SProc Unit := do
  let domainSID ← callE (Ev.lookupDomain selectedDomain) (o.lookupDomainR selectedDomain)
  let domainHandle ← callE (Ev.openDomain domainSID) (o.openDomainR domainSID)
  setDom (some domainHandle)
  let _ ← samrUserPhase cfg o fuel selectedDomain
  samrFinishPhase cfg o

/-- Body of `doSAMRAdd` (lines 348-446): everything inside the `try`. -/
def samrBody (cfg : Descriptor) (o : SamrOracle) (fuel : Nat) : SProc Unit := do
  let _ ← callE Ev.connect o.connectR
  let _ ← callE Ev.bindIface o.bindR
  let servHandle ← callE Ev.connect5 o.connect5R
  setServ (some servHandle)
  let domains ← callE Ev.enumDomains o.enumDomainsR
  let selectedDomain ← samrSelectDomain cfg domains
  samrWithDomain cfg o fuel selectedDomain

/-- One close of the guaranteed finalizer: skipped when the handle was
never acquired, otherwise the call is made and may itself raise. -/
def closeCall (o : SamrOracle) : Option Nat → List Ev × Option SamrExn
  | none => ([], none)
  | some h =>
      ([Ev.closeHandle h],
        match o.closeHandleR h with
        | Except.ok _ => none
        | Except.error e => some e)

/-- Sequencing inside the finalizer: a raised close aborts the rest. -/
def thenTd (p : List Ev × Option SamrExn) (q : Unit → List Ev × Option SamrExn) :
    List Ev × Option SamrExn :=
  match p with
  | (tr, some e) => (tr, some e)
  | (tr, none) =>
      match q () with
      | (tr2, r) => (tr ++ tr2, r)

/-- The `dce.disconnect()` call of the finalizer. -/
def disconnectCall (o : SamrOracle) : List Ev × Option SamrExn :=
  ([Ev.disconnect],
    match o.disconnectR with
    | Except.ok _ => none
    | Except.error e => some e)

/-- The `finally` block of `doSAMRAdd` (lines 454-461): close user handle,
then domain handle, then server handle — skipping any never acquired —
then disconnect the transport. -/
def samrTeardown (o : SamrOracle) (s : St) : List Ev × Option SamrExn :=
  thenTd (closeCall o s.userHandle) (fun _ =>
    thenTd (closeCall o s.domainHandle) (fun _ =>
      thenTd (closeCall o s.servHandle) (fun _ => disconnectCall o)))

/-- `Pres f m` says the computation `m` never changes the value of the
state projection `f`. -/
def Pres {ev σ ε τ α : Type} (f : σ → τ) (m : Proc ev σ ε α) : Prop :=
  ∀ s, f ((m s).2.1) = f s

/-- `TraceInv P m` says every event `m` can ever record satisfies `P`. -/
def TraceInv {ev σ ε α : Type} (P : ev → Prop) (m : Proc ev σ ε α) : Prop :=
  ∀ s, ∀ e ∈ (m s).1, P e

/-- `AlwaysErr m` says `m` raises on every input state. -/
def AlwaysErr {ev σ ε α : Type} (m : Proc ev σ ε α) : Prop :=
  ∀ s, ∃ x, (m s).2.2 = Res.err x

/-- Events belonging to the teardown: a handle close or the transport
disconnect. -/
def isTeardownEv : Ev → Bool
  | Ev.closeHandle _ => true
  | Ev.disconnect => true
  | _ => false

/-- The complete teardown event sequence for a final state: close user,
then domain, then server handle — skipping any never acquired — then
disconnect. -/
def tdFull (s : St) : List Ev :=
  (s.userHandle.toList.map Ev.closeHandle) ++ (s.domainHandle.toList.map Ev.closeHandle) ++
    (s.servHandle.toList.map Ev.closeHandle) ++ [Ev.disconnect]

/-- The handle argument of a close event, if any. -/
def closeArg : Ev → Option Nat
  | Ev.closeHandle h => some h
  | _ => none

/-- Outcome of one `doSAMRAdd`/`run_samr` invocation. -/
structure SamrRun where
  trace : List Ev
  bodyErr : Option SamrExn
  tdErr : Option SamrExn
  outcome : Option SamrExn
  finalName : Option String
  deriving Repr, DecidableEq

/-- Engine-entry state: the descriptor's computer name, no handles. -/
def initSt (cfg : Descriptor) : St := { computerName := cfg.computerName }

/-- `ADDCOMPUTER.doSAMRAdd`: run the body; a raised body exception is
caught and logged critical (lines 448-453); the finalizer then always
runs, and only an exception raised by the finalizer itself escapes.
`none` means the probe loop ran out of fuel. -/
def doSAMRAdd (cfg : Descriptor) (o : SamrOracle) (fuel : Nat) : Option SamrRun :=
  match samrBody cfg o fuel (initSt cfg) with
  | (_, _, Res.oot) => none
  | (btr, s1, Res.ok _) =>
      match samrTeardown o s1 with
      | (ttr, terr) => some ⟨btr ++ ttr, none, terr, terr, s1.computerName⟩
  | (btr, s1, Res.err e) =>
      match samrTeardown o s1 with
      | (ttr, terr) =>
          some ⟨btr ++ [Ev.logCritical (exnMsg e)] ++ ttr, some e, terr, terr, s1.computerName⟩

/-- `ADDCOMPUTER.run_samr` (lines 136-154): endpoint-mapper resolution and
transport setup — which can itself fail, with no handler around it — then
`doSAMRAdd`. -/
def run_samr (cfg : Descriptor) (o : SamrOracle) (fuel : Nat) : Option SamrRun :=
  match o.heptMapR with
  | Except.error e => some ⟨[Ev.heptMap], none, none, some e, cfg.computerName⟩
  | Except.ok _ =>
      (doSAMRAdd cfg o fuel).map (fun r => { r with trace := Ev.heptMap :: r.trace })

/-! ## Directory account engine (`run_ldaps`) -/

/-- A structured ldap3 operation result: numeric result code plus server
message. -/
structure LdapResult where
  result : Nat
  message : String
  deriving Repr, DecidableEq

/-- Modelled from the spec: `str(ldapConn.result)` renders the structured
result object (code and message). -/
def ldapResultStr (r : LdapResult) : String :=
  "result " ++ toString r.result ++ ": " ++ r.message

/-- ldap3 `RESULT_UNWILLING_TO_PERFORM`. -/
def RESULT_UNWILLING_TO_PERFORM : Nat := 53

/-- ldap3 `RESULT_INSUFFICIENT_ACCESS_RIGHTS`. -/
def RESULT_INSUFFICIENT_ACCESS_RIGHTS : Nat := 50

/-- Value of one hexadecimal digit, as accepted by Python `int(_, 16)`. -/
def hexDigitVal (c : Char) : Option Nat :=
  if '0' ≤ c ∧ c ≤ '9' then some (c.toNat - '0'.toNat)
  else if 'a' ≤ c ∧ c ≤ 'f' then some (c.toNat - 'a'.toNat + 10)
  else if 'A' ≤ c ∧ c ≤ 'F' then some (c.toNat - 'A'.toNat + 10)
  else none

/-- Python `int(s, 16)` on a stripped string: optional `0x` prefix, at
least one hex digit; `none` models the `ValueError` raise. -/
def parseHexNat (s : String) : Option Nat :=
  let t := stripChars s.toList
  let t2 := if t.take 2 = ['0', 'x'] ∨ t.take 2 = ['0', 'X'] then t.drop 2 else t
  if t2.isEmpty then none
  else
    t2.foldl
      (fun acc c =>
        match acc, hexDigitVal c with
        | some a, some v => some (a * 16 + v)
        | _, _ => none)
      (some 0)

/-- Python `s.split(":")[0]`: everything before the first colon. -/
def beforeColon (s : String) : String :=
  String.mk (s.toList.takeWhile (fun c => c ≠ ':'))

/-- The sub-code parse of `run_ldaps` line 309:
`int(message.split(":")[0].strip(), 16)`. -/
def parseSubCode (msg : String) : Option Nat := parseHexNat (beforeColon msg)

/-- Observable events of the directory engine. -/
inductive LEv where
  | setup
  | searchComputer (name : String)
  | deleteEntry (dn : String)
  | modifyPwd (dn : String)
  | addComputer (dn : String)
  | bypassAttempt
  | logCritical (msg : String)
  | logInfo (msg : String)
  deriving Repr, DecidableEq

/-- Mutable local state of `run_ldaps`: only `self.__computerName` is
reassigned. -/
structure LSt where
  computerName : Option String := none
  deriving Repr, DecidableEq

/-- Behaviour of the directory collaborators for one run.  `bypassR` is
the outcome of the whole `bypass_with_msExchStorageGroup` maneuver (its
internal directory calls may raise). -/
structure LdapOracle where
  setupR : Except String Unit
  existsR : String → Except String Bool
  getComputerR : String → Except String String
  deleteR : String → Except String (Bool × LdapResult)
  modifyR : String → Except String (Bool × LdapResult)
  addR : String → Except String (Bool × LdapResult)
  bypassR : Except String Bool
  choices : Nat → Nat → Nat

/-- Computations of the directory engine. -/
abbrev LProc (α : Type) : Type := Proc LEv LSt String α

/-- Reassign `self.__computerName` (directory engine). -/
def setNameL (n : Option String) : LProc Unit :=
  fun _ => ([], { computerName := n }, Res.ok ())

/-- The name-generation/existence-probe loop of `run_ldaps` (lines
282-285): generate, store, search; exit only when the search reports the
name absent. -/
def ldapProbeLoop (o : LdapOracle) : Nat → Nat → LProc String
  | 0, _ => fun s => ([], s, Res.oot)
  | Nat.succ fuel, i => do
      let name := generateComputerName (o.choices i)
      setNameL (some name)
      let ex ← callE (LEv.searchComputer name) (o.existsR name)
      if ex then ldapProbeLoop o fuel (i + 1) else ppure name

/-- Body of `run_ldaps` (lines 217-322): everything inside the outer
`try`.  The TLS/bind establishment (with its internal legacy-TLS retry)
is collapsed into the single `setup` collaborator call. -/
def ldapBody (cfg : Descriptor) (o : LdapOracle) (fuel : Nat) : LProc Unit := do
  let _ ← callE LEv.setup o.setupR
  if cfg.noAdd || cfg.delete then do
    let name := (← getS).computerName.getD ""
    let ex ← callE (LEv.searchComputer name) (o.existsR name)
    if !ex then
      raise ("Account " ++ name ++ " not found in " ++ cfg.baseDN.getD "" ++ "!")
    else do
      let dn ← callE (LEv.searchComputer name) (o.getComputerR name)
      let rr ←
        (if cfg.delete then callE (LEv.deleteEntry dn) (o.deleteR dn)
         else callE (LEv.modifyPwd dn) (o.modifyR dn))
      let message := if cfg.delete then "delete" else "set password for"
      if !rr.1 then
        if rr.2.result = RESULT_INSUFFICIENT_ACCESS_RIGHTS then
          raise ("User " ++ cfg.username ++ " doesn\x27t have right to " ++ message ++
            " " ++ name ++ "!")
        else raise (ldapResultStr rr.2)
      else
        if cfg.noAdd then
          emit (LEv.logInfo ("Succesfully set password of " ++ name ++ " to " ++
            cfg.computerPassword ++ "."))
        else
          emit (LEv.logInfo ("Succesfully deleted " ++ name ++ "."))
  else do
    let _ ←
      (match cfg.computerName with
      | some name => do
          let ex ← callE (LEv.searchComputer name) (o.existsR name)
          if ex then raise (msgAlreadyExists name) else ppure ()
      | none => do
          let _ ← ldapProbeLoop o fuel 0
          ppure ())
    let name := (← getS).computerName.getD ""
    let computerHostname := name.dropRight 1
    let computerDn := "CN=" ++ computerHostname ++ "," ++ cfg.computerGroup.getD ""
    let rr ← callE (LEv.addComputer computerDn) (o.addR computerDn)
    if !rr.1 then
      if rr.2.result = RESULT_UNWILLING_TO_PERFORM then
        match parseSubCode rr.2.message with
        | none => raise "invalid literal for int() with base 16"
        | some code =>
          if code = 0x216D then do
            emit (LEv.logCritical ("User " ++ cfg.username ++ " machine quota exceeded!"))
            if endsWithChar cfg.username '$' then do
              emit (LEv.logInfo "Trying to bypass machine quota with msExchStorageGroup object")
              let _ ← callE LEv.bypassAttempt o.bypassR
              ppure ()
            else ppure ()
          else raise (ldapResultStr rr.2)
      else if rr.2.result = RESULT_INSUFFICIENT_ACCESS_RIGHTS then
        raise ("User " ++ cfg.username ++ " doesn\x27t have right to create a machine account!")
      else raise (ldapResultStr rr.2)
    else
      emit (LEv.logInfo ("Successfully added machine account " ++ name ++
        " with password " ++ cfg.computerPassword ++ "."))

/-- Outcome of one `run_ldaps` invocation.  There is no teardown and the
outer handler catches every exception, so nothing ever escapes: the only
record of a failure is `bodyErr` (logged critical). -/
structure LdapsRun where
  trace : List LEv
  bodyErr : Option String
  finalName : Option String
  deriving Repr, DecidableEq

/-- `ADDCOMPUTER.run_ldaps`: the body under the outer `try`; any raised
exception is caught and logged critical (lines 323-328). -/
def run_ldaps (cfg : Descriptor) (o : LdapOracle) (fuel : Nat) : Option LdapsRun :=
  match ldapBody cfg o fuel { computerName := cfg.computerName } with
  | (_, _, Res.oot) => none
  | (tr, s, Res.ok _) => some ⟨tr, none, s.computerName⟩
  | (tr, s, Res.err e) => some ⟨tr ++ [LEv.logCritical e], some e, s.computerName⟩

/-! ## Orchestration (`run` and the constructor) -/

/-- Outcome of one whole tool invocation. -/
inductive ToolRun where
  | configError (msg : String)
  | samrRun (r : SamrRun)
  | ldapsRun (r : LdapsRun)
  | noOp
  deriving Repr, DecidableEq

/-- Construction plus `ADDCOMPUTER.run`: resolution failure raises before
any engine — and hence any network operation — runs; otherwise dispatch on
the configured method. -/
def runTool (opts : Options) (pwChoice : Nat → Nat) (oS : SamrOracle) (oL : LdapOracle)
    (fuel : Nat) : Option ToolRun :=
  match resolveDescriptor opts pwChoice with
  | Except.error m => some (ToolRun.configError m)
  | Except.ok d =>
      if d.method = "SAMR" then (run_samr d oS fuel).map ToolRun.samrRun
      else if d.method = "LDAPS" then (run_ldaps d oL fuel).map ToolRun.ldapsRun
      else some ToolRun.noOp

/-! ## Concrete instances used by witnesses and counterexamples -/

/-- Degenerate random stream. -/
def pw0 : Nat → Nat := fun _ => 0

/-- A well-formed option set for the RPC method. -/
def baseOptions : Options :=
  { username := "rider", password := "pw", domain := "corp.local", k := false,
    dc_host := none, dc_ip := none, computer_name := some "WS01", computer_pass := some "Secret",
    method := "SAMR", port := none, domain_netbios := none, no_add := false, delete := false,
    baseDN := none, computer_group := none }

/-- SetPassword requested without a computer name. -/
def optsNoAddNoName : Options := { baseOptions with computer_name := none, no_add := true }

/-- Create with the empty string supplied as computer name. -/
def optsEmptyName : Options := { baseOptions with computer_name := some "" }

/-- A resolved descriptor for an RPC-path Create with a supplied name. -/
def cfgSamrCreate : Descriptor :=
  { username := "rider", password := "pw", domain := "corp.local", target := "dc",
    targetIp := none, kdcHost := none, port := 445, method := "SAMR",
    domainNetbios := "corp.local", computerName := some "WS01$", computerPassword := "Secret",
    noAdd := false, delete := false, baseDN := none, computerGroup := none, doKerberos := false }

/-- The same descriptor pointed at the directory path. -/
def cfgLdapCreate : Descriptor :=
  { cfgSamrCreate with
    method := "LDAPS"
    port := 636
    baseDN := some "DC=corp,DC=local"
    computerGroup := some "CN=Computers,DC=corp,DC=local" }

/-- An RPC collaborator behaviour where every call succeeds: one non-builtin
domain, the supplied name initially absent, then resolvable after creation. -/
def oracleAllOk : SamrOracle :=
  { heptMapR := Except.ok (), connectR := Except.ok (), bindR := Except.ok (),
    connect5R := Except.ok 11, enumDomainsR := Except.ok ["Builtin", "CORP"],
    lookupDomainR := fun _ => Except.ok 77, openDomainR := fun _ => Except.ok 22,
    lookupNamesR := fun k _ =>
      if k = 0 then Except.error (SamrExn.sessionError 0xc0000073) else Except.ok 500,
    openUserR := fun _ _ => Except.ok 44, createUserR := fun _ => Except.ok 33,
    deleteUserR := fun _ => Except.ok (), setPasswordR := fun _ => Except.ok (),
    setInfoR := fun _ => Except.ok (), closeHandleR := fun _ => Except.ok (),
    disconnectR := Except.ok (), choices := fun _ _ => 0 }

/-- A directory collaborator behaviour where setup succeeds, no name
exists and every operation succeeds. -/
def ldapAllOk : LdapOracle :=
  { setupR := Except.ok (), existsR := fun _ => Except.ok false,
    getComputerR := fun n => Except.ok ("CN=" ++ n),
    deleteR := fun _ => Except.ok (true, ⟨0, ""⟩),
    modifyR := fun _ => Except.ok (true, ⟨0, ""⟩),
    addR := fun _ => Except.ok (true, ⟨0, ""⟩),
    bypassR := Except.ok true, choices := fun _ _ => 0 }

/-- The directory descriptor with no supplied computer name. -/
def cfgLdapNoName : Descriptor := { cfgLdapCreate with computerName := none }

/-- Default value used to project concrete runs in closed statements. -/
def emptyLdapsRun : LdapsRun := ⟨[], none, none⟩

/-- Default value used to project concrete runs in closed statements. -/
def emptySamrRun : SamrRun := ⟨[], none, none, none, none⟩

/-- RPC collaborators whose endpoint-mapper lookup fails. -/
def oracleHeptFail : SamrOracle :=
  { oracleAllOk with heptMapR := Except.error (SamrExn.generalExn "Connection refused") }

/-- Directory collaborators denying the add with insufficient access. -/
def ldapDenied : LdapOracle :=
  { ldapAllOk with addR := fun _ => Except.ok (false, ⟨50, ""⟩) }

/-- The directory descriptor with a machine-account principal. -/
def cfgQuota : Descriptor := { cfgLdapCreate with username := "WS09$" }

/-- Directory collaborators whose add is refused with the quota-exceeded
sub-code. -/
def ldapQuota : LdapOracle :=
  { ldapAllOk with addR := fun _ => Except.ok (false, ⟨53, "0000216D: SvcErr: DSID"⟩) }

/-- RPC collaborators enumerating two non-builtin domains. -/
def oracleTwoDomains : SamrOracle :=
  { oracleAllOk with enumDomainsR := Except.ok ["Builtin", "CORP", "DEV"] }

/-- The RPC descriptor with a NetBIOS name disambiguating to `CORP`. -/
def cfgNetbios : Descriptor := { cfgSamrCreate with domainNetbios := "corp" }

/-- Directory collaborators for which every searched name already exists. -/
def ldapExists : LdapOracle := { ldapAllOk with existsR := fun _ => Except.ok true }

/-! ## Theorems -/

/-- Character list of a generated name. -/
theorem generateComputerName_toList (choice : Nat → Nat) :
    (generateComputerName choice).toList =
      "DESKTOP-".toList ++ (List.range 8).map (fun i => pickChar (choice i)) ++ ['$'] := by
  show ("DESKTOP-" ++ String.mk ((List.range 8).map (fun i => pickChar (choice i))) ++ "$").data = _
  simp [String.data_append]

/-- Every random draw lands in the name alphabet. -/
theorem pickChar_mem (n : Nat) : pickChar n ∈ samAlphabet := by
  have hlen : samAlphabet.length = 36 := by rfl
  have h : n % 36 < samAlphabet.length := by
    rw [hlen]; exact Nat.mod_lt n (by decide)
  unfold pickChar
  rw [List.getD_eq_getElem samAlphabet 'A' h]
  exact List.getElem_mem h

/-- The RPC probe loop only returns a name whose lookup reported absent
(`0xc0000073`), and that name came from the generator. -/
theorem samrProbeLoop_ok (o : SamrOracle) :
    ∀ (fuel i : Nat) (s : St) (tr : List Ev) (s2 : St) (name : String),
      samrProbeLoop o fuel i s = (tr, s2, Res.ok name) →
      (∃ j, o.lookupNamesR j name = Except.error (SamrExn.sessionError 0xc0000073)) ∧
      ∃ k, name = generateComputerName (o.choices k) := by
  intro fuel
  induction fuel with
  | zero => intro i s tr s2 name h; simp [samrProbeLoop] at h
  | succ fuel ih =>
      intro i s tr s2 name h
      rw [samrProbeLoop] at h
      rcases hL : o.lookupNamesR s.lk (generateComputerName (o.choices i)) with e | v
      · cases e with
        | sessionError c =>
            by_cases hc : c = 0xc0000073
            · subst hc
              simp [bind_def, pbind, setName, pcatch, samrLookupNames, ppure, raise, hL] at h
              obtain ⟨htr, hs2, hname⟩ := h
              refine ⟨⟨s.lk, ?_⟩, ⟨i, hname.symm⟩⟩
              rw [hname] at hL
              exact hL
            · simp [bind_def, pbind, setName, pcatch, samrLookupNames, ppure, raise, hL, hc] at h
        | generalExn m =>
            simp [bind_def, pbind, setName, pcatch, samrLookupNames, ppure, raise, hL] at h
      · rcases hR : samrProbeLoop o fuel (i + 1)
          { s with computerName := some (generateComputerName (o.choices i)), lk := s.lk + 1 }
          with ⟨tr0, s0, r0⟩
        simp [bind_def, pbind, setName, pcatch, samrLookupNames, ppure, raise, hL, hR] at h
        obtain ⟨htr, hs2, hr0⟩ := h
        rw [hr0] at hR
        exact ih (i + 1) _ tr0 s0 name hR

/-- The directory probe loop only returns a name whose existence search
reported absent, and that name came from the generator. -/
theorem ldapProbeLoop_ok (o : LdapOracle) :
    ∀ (fuel i : Nat) (s : LSt) (tr : List LEv) (s2 : LSt) (name : String),
      ldapProbeLoop o fuel i s = (tr, s2, Res.ok name) →
      o.existsR name = Except.ok false ∧
      ∃ k, name = generateComputerName (o.choices k) := by
  intro fuel
  induction fuel with
  | zero => intro i s tr s2 name h; simp [ldapProbeLoop] at h
  | succ fuel ih =>
      intro i s tr s2 name h
      rw [ldapProbeLoop] at h
      rcases hL : o.existsR (generateComputerName (o.choices i)) with e | v
      · simp [bind_def, pbind, setNameL, callE, ppure, hL] at h
      · cases v with
        | true =>
            rcases hR : ldapProbeLoop o fuel (i + 1)
              { computerName := some (generateComputerName (o.choices i)) }
              with ⟨tr0, s0, r0⟩
            simp [bind_def, pbind, setNameL, callE, ppure, hL, hR] at h
            obtain ⟨htr, hs2, hr0⟩ := h
            rw [hr0] at hR
            exact ih (i + 1) _ tr0 s0 name hR
        | false =>
            simp [bind_def, pbind, setNameL, callE, ppure, hL] at h
            obtain ⟨htr, hs2, hname⟩ := h
            rw [hname] at hL
            exact ⟨hL, ⟨i, hname.symm⟩⟩

/-! ### Preservation of a state projection -/

theorem pres_bind {ev σ ε τ α β : Type} {f : σ → τ} {m : Proc ev σ ε α}
    {g : α → Proc ev σ ε β} (h1 : Pres f m) (h2 : ∀ a, Pres f (g a)) :
    Pres f (m >>= g) := by
  intro s
  simp only [bind_def, pbind]
  rcases hm : m s with ⟨tr, s2, r⟩
  have e1 : f s2 = f s := by simpa [hm] using h1 s
  cases r with
  | ok a =>
      rcases hg : g a s2 with ⟨tr2, s3, r2⟩
      have e2 : f s3 = f s2 := by simpa [hg] using h2 a s2
      simp [hg, e2, e1]
  | err e => simpa using e1
  | oot => simpa using e1

theorem pres_pcatch {ev σ ε τ α : Type} {f : σ → τ} {m : Proc ev σ ε α}
    {g : ε → Proc ev σ ε α} (h1 : Pres f m) (h2 : ∀ e, Pres f (g e)) :
    Pres f (pcatch m g) := by
  intro s
  unfold pcatch
  rcases hm : m s with ⟨tr, s2, r⟩
  have e1 : f s2 = f s := by simpa [hm] using h1 s
  cases r with
  | ok a => simpa using e1
  | err e =>
      rcases hg : g e s2 with ⟨tr2, s3, r2⟩
      have e2 : f s3 = f s2 := by simpa [hg] using h2 e s2
      simp [hg, e2, e1]
  | oot => simpa using e1

theorem pres_ite {ev σ ε τ α : Type} {f : σ → τ} {c : Prop} [Decidable c]
    {t e : Proc ev σ ε α} (h1 : Pres f t) (h2 : Pres f e) :
    Pres f (if c then t else e) := by
  split
  · exact h1
  · exact h2

theorem pres_ppure {ev σ ε τ α : Type} {f : σ → τ} (a : α) :
    Pres f (ppure a : Proc ev σ ε α) := fun _ => rfl

theorem pres_emit {ev σ ε τ : Type} {f : σ → τ} (e : ev) :
    Pres f (emit e : Proc ev σ ε Unit) := fun _ => rfl

theorem pres_raise {ev σ ε τ α : Type} {f : σ → τ} (x : ε) :
    Pres f (raise x : Proc ev σ ε α) := fun _ => rfl

theorem pres_callE {ev σ ε τ α : Type} {f : σ → τ} (e : ev) (r : Except ε α) :
    Pres f (callE e r : Proc ev σ ε α) := fun _ => rfl

theorem pres_getS {ev σ ε τ : Type} {f : σ → τ} :
    Pres f (getS : Proc ev σ ε σ) := fun _ => rfl

theorem keeps_setServ (h : Option Nat) : Pres St.computerName (setServ h) := fun _ => rfl

theorem keeps_setDom (h : Option Nat) : Pres St.computerName (setDom h) := fun _ => rfl

theorem keeps_setUser (h : Option Nat) : Pres St.computerName (setUser h) := fun _ => rfl

theorem keeps_samrLookupNames (o : SamrOracle) (name : String) :
    Pres St.computerName (samrLookupNames o name) := fun _ => rfl

theorem keeps_logDomains : ∀ l : List String, Pres St.computerName (logDomains l) := by
  intro l
  induction l with
  | nil => exact pres_ppure ()
  | cons d ds ih => exact pres_bind (pres_emit _) (fun _ => ih)

/-- Events recorded by a left operand survive into the sequenced trace. -/
theorem mem_trace_pbind_left {ev σ ε α β : Type} {m : Proc ev σ ε α}
    {f : α → Proc ev σ ε β} {e : ev} {s : σ} (h : e ∈ (m s).1) :
    e ∈ ((pbind m f) s).1 := by
  unfold pbind
  rcases hm : m s with ⟨tr, s2, r⟩
  rw [hm] at h
  cases r with
  | ok a =>
      rcases hg : f a s2 with ⟨tr2, s3, r2⟩
      simpa using Or.inl h
  | err x => simpa using h
  | oot => simpa using h

/-- Full evaluation of the domain listing. -/
theorem logDomains_run : ∀ (l : List String) (s : St),
    logDomains l s = (l.map (fun d => Ev.logError (" * " ++ d)), s, Res.ok ()) := by
  intro l
  induction l with
  | nil => intro s; rfl
  | cons d ds ih =>
      intro s
      simp [logDomains, bind_def, pbind, emit, ih]

/-! ### Trace invariants -/

theorem tinv_bind {ev σ ε α β : Type} {P : ev → Prop} {m : Proc ev σ ε α}
    {f : α → Proc ev σ ε β} (h1 : TraceInv P m) (h2 : ∀ a, TraceInv P (f a)) :
    TraceInv P (m >>= f) := by
  intro s e he
  simp only [bind_def, pbind] at he
  rcases hm : m s with ⟨tr, s2, r⟩
  rw [hm] at he
  have h1s := h1 s
  rw [hm] at h1s
  cases r with
  | ok a =>
      simp at he
      rcases he with h | h
      · exact h1s e h
      · exact h2 a s2 e h
  | err x => exact h1s e he
  | oot => exact h1s e he

/-- Skipping the continuation: when the head computation always raises,
the sequence records exactly the head's events. -/
theorem tinv_bind_err {ev σ ε α β : Type} {P : ev → Prop} {m : Proc ev σ ε α}
    {f : α → Proc ev σ ε β} (h1 : TraceInv P m) (herr : AlwaysErr m) :
    TraceInv P (m >>= f) := by
  intro s e he
  simp only [bind_def, pbind] at he
  rcases hm : m s with ⟨tr, s2, r⟩
  rw [hm] at he
  have h1s := h1 s
  rw [hm] at h1s
  cases r with
  | ok a =>
      obtain ⟨x, hx⟩ := herr s
      rw [hm] at hx
      simp at hx
  | err x => exact h1s e he
  | oot => exact h1s e he

theorem tinv_pcatch {ev σ ε α : Type} {P : ev → Prop} {m : Proc ev σ ε α}
    {g : ε → Proc ev σ ε α} (h1 : TraceInv P m) (h2 : ∀ x, TraceInv P (g x)) :
    TraceInv P (pcatch m g) := by
  intro s e he
  unfold pcatch at he
  rcases hm : m s with ⟨tr, s2, r⟩
  rw [hm] at he
  have h1s := h1 s
  rw [hm] at h1s
  cases r with
  | ok a => exact h1s e he
  | err x =>
      simp at he
      rcases he with h | h
      · exact h1s e h
      · exact h2 x s2 e h
  | oot => exact h1s e he

theorem tinv_ite {ev σ ε α : Type} {P : ev → Prop} {c : Prop} [Decidable c]
    {t e : Proc ev σ ε α} (h1 : TraceInv P t) (h2 : TraceInv P e) :
    TraceInv P (if c then t else e) := by
  split
  · exact h1
  · exact h2

theorem tinv_emit {ev σ ε : Type} {P : ev → Prop} {e0 : ev} (h : P e0) :
    TraceInv P (emit e0 : Proc ev σ ε Unit) := by
  intro s e he
  simp [emit] at he
  rw [he]
  exact h

theorem tinv_callE {ev σ ε α : Type} {P : ev → Prop} {e0 : ev} {r : Except ε α}
    (h : P e0) : TraceInv P (callE e0 r : Proc ev σ ε α) := by
  intro s e he
  simp [callE] at he
  rw [he]
  exact h

theorem tinv_ppure {ev σ ε α : Type} {P : ev → Prop} (a : α) :
    TraceInv P (ppure a : Proc ev σ ε α) := by
  intro s e he
  simp [ppure] at he

theorem tinv_raise {ev σ ε α : Type} {P : ev → Prop} (x : ε) :
    TraceInv P (raise x : Proc ev σ ε α) := by
  intro s e he
  simp [raise] at he

theorem tinv_getS {ev σ ε : Type} {P : ev → Prop} :
    TraceInv P (getS : Proc ev σ ε σ) := by
  intro s e he
  simp [getS] at he

theorem tinv_setServ {P : Ev → Prop} (h : Option Nat) : TraceInv P (setServ h) := by
  intro s e he
  simp [setServ] at he

theorem tinv_setDom {P : Ev → Prop} (h : Option Nat) : TraceInv P (setDom h) := by
  intro s e he
  simp [setDom] at he

theorem tinv_setUser {P : Ev → Prop} (h : Option Nat) : TraceInv P (setUser h) := by
  intro s e he
  simp [setUser] at he

theorem tinv_setName {P : Ev → Prop} (n : Option String) : TraceInv P (setName n) := by
  intro s e he
  simp [setName] at he

theorem tinv_samrLookupNames {P : Ev → Prop} (o : SamrOracle) (name : String)
    (h : P (Ev.lookupNames name)) : TraceInv P (samrLookupNames o name) := by
  intro s e he
  simp [samrLookupNames] at he
  rw [he]
  exact h

theorem tinv_logDomains {P : Ev → Prop} (l : List String)
    (h : ∀ d, P (Ev.logError (" * " ++ d))) : TraceInv P (logDomains l) := by
  intro s e he
  rw [logDomains_run] at he
  simp at he
  obtain ⟨d, _, hd⟩ := he
  rw [← hd]
  exact h d

theorem tinv_probeLoop {P : Ev → Prop} (o : SamrOracle)
    (h : ∀ nm, P (Ev.lookupNames nm)) :
    ∀ fuel i, TraceInv P (samrProbeLoop o fuel i) := by
  intro fuel
  induction fuel with
  | zero => intro i s e he; simp [samrProbeLoop] at he
  | succ fuel ih =>
      intro i
      rw [samrProbeLoop]
      refine tinv_bind (tinv_setName _) (fun _ => ?_)
      refine tinv_bind (tinv_pcatch (tinv_bind (tinv_samrLookupNames o _ (h _))
        (fun _ => tinv_ppure _)) (fun x => ?_)) (fun taken => ?_)
      · cases x with
        | sessionError c => exact tinv_ite (tinv_ppure _) (tinv_raise _)
        | generalExn m => exact tinv_raise _
      · exact tinv_ite (ih (i + 1)) (tinv_ppure _)

theorem tinv_selectDomain {P : Ev → Prop} (cfg : Descriptor) (ds : List String)
    (hc : ∀ m, P (Ev.logCritical m)) (he : ∀ m, P (Ev.logError m)) :
    TraceInv P (samrSelectDomain cfg ds) := by
  unfold samrSelectDomain
  refine tinv_ite ?_ ?_
  · refine tinv_ite ?_ (tinv_ppure _)
    refine tinv_bind (tinv_emit (hc _)) (fun _ => ?_)
    refine tinv_bind (tinv_emit (hc _)) (fun _ => ?_)
    refine tinv_bind (tinv_logDomains _ (fun d => he _)) (fun _ => ?_)
    exact tinv_bind (tinv_emit (hc _)) (fun _ => tinv_raise _)
  · split
    · exact tinv_raise _
    · exact tinv_ppure _

theorem tinv_userPhase {P : Ev → Prop} (cfg : Descriptor) (o : SamrOracle) (fuel : Nat)
    (sel : String) (hlk : ∀ nm, P (Ev.lookupNames nm)) (hou : ∀ a b, P (Ev.openUser a b))
    (hcu : ∀ nm, P (Ev.createUser nm)) : TraceInv P (samrUserPhase cfg o fuel sel) := by
  unfold samrUserPhase
  refine tinv_ite ?_ ?_
  · refine tinv_bind tinv_getS (fun st => ?_)
    refine tinv_bind (tinv_pcatch (tinv_samrLookupNames o _ (hlk _)) (fun x => ?_)) (fun _ => ?_)
    · cases x with
      | sessionError c => exact tinv_ite (tinv_raise _) (tinv_raise _)
      | generalExn m => exact tinv_raise _
    · refine tinv_bind (tinv_pcatch (tinv_callE (hou _ _)) (fun x => ?_)) (fun _ => ?_)
      · cases x with
        | sessionError c => exact tinv_ite (tinv_raise _) (tinv_raise _)
        | generalExn m => exact tinv_raise _
      · exact tinv_setUser _
  · refine tinv_bind ?_ (fun _ => ?_)
    · cases cfg.computerName with
      | some name =>
          refine tinv_pcatch (tinv_bind (tinv_samrLookupNames o _ (hlk _))
            (fun _ => tinv_raise _)) (fun x => ?_)
          cases x with
          | sessionError c => exact tinv_ite (tinv_raise _) (tinv_ppure _)
          | generalExn m => exact tinv_raise _
      | none => exact tinv_bind (tinv_probeLoop o hlk fuel 0) (fun _ => tinv_ppure _)
    · refine tinv_bind tinv_getS (fun st => ?_)
      exact tinv_bind (tinv_callE (hcu _)) (fun _ => tinv_setUser _)

theorem tinv_finishPhase {P : Ev → Prop} (cfg : Descriptor) (o : SamrOracle)
    (h1 : ∀ h, P (Ev.deleteUser h)) (h2 : ∀ m, P (Ev.logInfo m))
    (h3 : ∀ h, P (Ev.setPassword h)) (h4 : ∀ nm, P (Ev.lookupNames nm))
    (h5 : ∀ a b, P (Ev.openUser a b)) (h6 : ∀ h, P (Ev.setInfo h)) :
    TraceInv P (samrFinishPhase cfg o) := by
  unfold samrFinishPhase
  refine tinv_ite ?_ ?_
  · refine tinv_bind tinv_getS (fun st => ?_)
    refine tinv_bind (tinv_callE (h1 _)) (fun _ => ?_)
    refine tinv_bind tinv_getS (fun st2 => ?_)
    exact tinv_bind (tinv_emit (h2 _)) (fun _ => tinv_setUser _)
  · refine tinv_bind tinv_getS (fun st => ?_)
    refine tinv_bind (tinv_callE (h3 _)) (fun _ => ?_)
    refine tinv_ite ?_ ?_
    · exact tinv_bind tinv_getS (fun st2 => tinv_emit (h2 _))
    · refine tinv_bind tinv_getS (fun st2 => ?_)
      refine tinv_bind (tinv_samrLookupNames o _ (h4 _)) (fun _ => ?_)
      refine tinv_bind (tinv_callE (h5 _ _)) (fun _ => ?_)
      refine tinv_bind (tinv_setUser _) (fun _ => ?_)
      exact tinv_bind (tinv_callE (h6 _)) (fun _ => tinv_emit (h2 _))

/-- The whole RPC engine body records no teardown event: the closes and
the disconnect happen only in the finalizer. -/
theorem samrBody_no_teardown (cfg : Descriptor) (o : SamrOracle) (fuel : Nat) :
    TraceInv (fun e => isTeardownEv e = false) (samrBody cfg o fuel) := by
  unfold samrBody
  refine tinv_bind (tinv_callE (by rfl)) (fun _ => ?_)
  refine tinv_bind (tinv_callE (by rfl)) (fun _ => ?_)
  refine tinv_bind (tinv_callE (by rfl)) (fun _ => ?_)
  refine tinv_bind (tinv_setServ _) (fun _ => ?_)
  refine tinv_bind (tinv_callE (by rfl)) (fun _ => ?_)
  refine tinv_bind (tinv_selectDomain cfg _ (fun m => by rfl) (fun m => by rfl)) (fun sel => ?_)
  unfold samrWithDomain
  refine tinv_bind (tinv_callE (by rfl)) (fun _ => ?_)
  refine tinv_bind (tinv_callE (by rfl)) (fun _ => ?_)
  refine tinv_bind (tinv_setDom _) (fun _ => ?_)
  refine tinv_bind (tinv_userPhase cfg o fuel sel (fun nm => by rfl) (fun a b => by rfl)
    (fun nm => by rfl)) (fun _ => ?_)
  exact tinv_finishPhase cfg o (fun h => by rfl) (fun m => by rfl) (fun h => by rfl)
    (fun nm => by rfl) (fun a b => by rfl) (fun h => by rfl)

/-- One finalizer step: its events extend a prefix of the remaining full
sequence, and completeness is preserved when nothing raises. -/
theorem tdStep (o : SamrOracle) (h? : Option Nat) (restTr : List Ev)
    (rest : Unit → List Ev × Option SamrExn)
    (hpre : List.IsPrefix (rest ()).1 restTr)
    (hcomp : (rest ()).2 = none → (rest ()).1 = restTr) :
    List.IsPrefix (thenTd (closeCall o h?) rest).1
      (h?.toList.map Ev.closeHandle ++ restTr) ∧
    ((thenTd (closeCall o h?) rest).2 = none →
      (thenTd (closeCall o h?) rest).1 = h?.toList.map Ev.closeHandle ++ restTr) := by
  cases h? with
  | none =>
      simp [closeCall, thenTd]
      exact ⟨hpre, hcomp⟩
  | some v =>
      rcases hc : o.closeHandleR v with x | u
      · simp [closeCall, thenTd, hc]
      · simp [closeCall, thenTd, hc]
        constructor
        · obtain ⟨t, ht⟩ := hpre
          exact ⟨t, by simp [ht]⟩
        · intro h
          rw [hcomp h]

/-- The disconnect step of the finalizer. -/
theorem tdBase (o : SamrOracle) :
    List.IsPrefix (disconnectCall o).1 [Ev.disconnect] ∧
    ((disconnectCall o).2 = none → (disconnectCall o).1 = [Ev.disconnect]) := by
  constructor
  · exact ⟨[], rfl⟩
  · intro _
    rfl

/-- The finalizer's trace is always an in-order prefix of the full
user/domain/server/disconnect sequence, and is that whole sequence when
none of its own calls raises. -/
theorem samrTeardown_ordered (o : SamrOracle) (s : St) :
    List.IsPrefix (samrTeardown o s).1 (tdFull s) ∧
    ((samrTeardown o s).2 = none → (samrTeardown o s).1 = tdFull s) := by
  have h3 := tdStep o s.servHandle [Ev.disconnect] (fun _ => disconnectCall o)
    (tdBase o).1 (tdBase o).2
  have h2 := tdStep o s.domainHandle
    (s.servHandle.toList.map Ev.closeHandle ++ [Ev.disconnect])
    (fun _ => thenTd (closeCall o s.servHandle) (fun _ => disconnectCall o)) h3.1 h3.2
  have h1 := tdStep o s.userHandle
    (s.domainHandle.toList.map Ev.closeHandle ++
      (s.servHandle.toList.map Ev.closeHandle ++ [Ev.disconnect]))
    (fun _ => thenTd (closeCall o s.domainHandle)
      (fun _ => thenTd (closeCall o s.servHandle) (fun _ => disconnectCall o))) h2.1 h2.2
  unfold samrTeardown
  unfold tdFull
  constructor
  · simpa [List.append_assoc] using h1.1
  · intro h
    simpa [List.append_assoc] using h1.2 h

/-- Every finalizer event is a close or the disconnect. -/
theorem samrTeardown_events (o : SamrOracle) (s : St) :
    ∀ e ∈ (samrTeardown o s).1, isTeardownEv e = true := by
  intro e he
  have hsub := (samrTeardown_ordered o s).1.subset he
  simp [tdFull] at hsub
  rcases hsub with ⟨v, _, hv⟩ | ⟨v, _, hv⟩ | ⟨v, _, hv⟩ | hv
  · rw [← hv]; rfl
  · rw [← hv]; rfl
  · rw [← hv]; rfl
  · rw [hv]; rfl

/-- C1: on every exit path of the RPC engine (success, caught body error,
or body exception), the trace ends with the guaranteed finalizer: no
teardown event ever occurs before it, its events follow the order
user-handle close, domain-handle close, server-handle close — skipping
any handle never acquired — then transport disconnect, and when none of
the finalizer's own calls raises it performs exactly that whole
sequence. -/
theorem samr_teardown_guaranteed :
    ∀ (cfg : Descriptor) (o : SamrOracle) (fuel : Nat) (r : SamrRun),
      doSAMRAdd cfg o fuel = some r →
      ∃ pre s1,
        r.trace = pre ++ (samrTeardown o s1).1 ∧
        (∀ e ∈ pre, isTeardownEv e = false) ∧
        List.IsPrefix (samrTeardown o s1).1 (tdFull s1) ∧
        ((samrTeardown o s1).2 = none → (samrTeardown o s1).1 = tdFull s1) := by
  intro cfg o fuel r hr
  unfold doSAMRAdd at hr
  rcases hB : samrBody cfg o fuel (initSt cfg) with ⟨btr, s1, rres⟩
  rw [hB] at hr
  have hbody := samrBody_no_teardown cfg o fuel (initSt cfg)
  rw [hB] at hbody
  cases rres with
  | oot => simp at hr
  | ok a =>
      rcases hT : samrTeardown o s1 with ⟨ttr, terr⟩
      simp [hT] at hr
      refine ⟨btr, s1, ?_, ?_, (samrTeardown_ordered o s1).1, (samrTeardown_ordered o s1).2⟩
      · rw [← hr, hT]
      · exact fun e he => hbody e he
  | err x =>
      rcases hT : samrTeardown o s1 with ⟨ttr, terr⟩
      simp [hT] at hr
      refine ⟨btr ++ [Ev.logCritical (exnMsg x)], s1, ?_, ?_,
        (samrTeardown_ordered o s1).1, (samrTeardown_ordered o s1).2⟩
      · rw [← hr, hT]
        simp
      · intro e he
        simp at he
        rcases he with h | h
        · exact hbody e h
        · rw [h]
          rfl

/-- Witness for C1 at a concrete successful create run. -/
theorem samr_teardown_guaranteed_witness :
    ∃ pre s1,
      ((doSAMRAdd cfgSamrCreate oracleAllOk 5).getD emptySamrRun).trace =
        pre ++ (samrTeardown oracleAllOk s1).1 ∧
      (∀ e ∈ pre, isTeardownEv e = false) ∧
      List.IsPrefix (samrTeardown oracleAllOk s1).1 (tdFull s1) ∧
      ((samrTeardown oracleAllOk s1).2 = none →
        (samrTeardown oracleAllOk s1).1 = tdFull s1) :=
  samr_teardown_guaranteed cfgSamrCreate oracleAllOk 5 _ (by rfl)

/-- Domain selection never touches the descriptor's name field. -/
theorem keeps_selectDomain (cfg : Descriptor) (ds : List String) :
    Pres St.computerName (samrSelectDomain cfg ds) := by
  unfold samrSelectDomain
  refine pres_ite ?_ ?_
  · refine pres_ite ?_ ?_
    · refine pres_bind (pres_emit _) (fun _ => ?_)
      refine pres_bind (pres_emit _) (fun _ => ?_)
      refine pres_bind (keeps_logDomains _) (fun _ => ?_)
      refine pres_bind (pres_emit _) (fun _ => ?_)
      exact pres_raise _
    · exact pres_ppure _
  · split
    · exact pres_raise _
    · exact pres_ppure _

/-- With a supplied computer name the user phase never touches the
descriptor's name field (the probe loop — the only writer — is not
reached). -/
theorem keeps_userPhase (cfg : Descriptor) (o : SamrOracle) (fuel : Nat) (sel : String)
    (n : String) (hn : cfg.computerName = some n) :
    Pres St.computerName (samrUserPhase cfg o fuel sel) := by
  unfold samrUserPhase
  simp only [hn]
  refine pres_ite ?_ ?_
  · refine pres_bind pres_getS (fun st => ?_)
    refine pres_bind (pres_pcatch (keeps_samrLookupNames _ _) (fun e => ?_)) (fun _ => ?_)
    · cases e with
      | sessionError c => exact pres_ite (pres_raise _) (pres_raise _)
      | generalExn m => exact pres_raise _
    · refine pres_bind (pres_pcatch (pres_callE _ _) (fun e => ?_)) (fun _ => ?_)
      · cases e with
        | sessionError c => exact pres_ite (pres_raise _) (pres_raise _)
        | generalExn m => exact pres_raise _
      · exact keeps_setUser _
  · refine pres_bind (pres_pcatch (pres_bind (keeps_samrLookupNames _ _)
      (fun _ => pres_raise _)) (fun e => ?_)) (fun _ => ?_)
    · cases e with
      | sessionError c => exact pres_ite (pres_raise _) (pres_ppure _)
      | generalExn m => exact pres_raise _
    · refine pres_bind pres_getS (fun st => ?_)
      refine pres_bind (pres_callE _ _) (fun _ => ?_)
      exact keeps_setUser _

/-- The final mutation phase never touches the descriptor's name field. -/
theorem keeps_finishPhase (cfg : Descriptor) (o : SamrOracle) :
    Pres St.computerName (samrFinishPhase cfg o) := by
  unfold samrFinishPhase
  refine pres_ite ?_ ?_
  · refine pres_bind pres_getS (fun st => ?_)
    refine pres_bind (pres_callE _ _) (fun _ => ?_)
    refine pres_bind pres_getS (fun st2 => ?_)
    refine pres_bind (pres_emit _) (fun _ => ?_)
    exact keeps_setUser _
  · refine pres_bind pres_getS (fun st => ?_)
    refine pres_bind (pres_callE _ _) (fun _ => ?_)
    refine pres_ite ?_ ?_
    · exact pres_bind pres_getS (fun st2 => pres_emit _)
    · refine pres_bind pres_getS (fun st2 => ?_)
      refine pres_bind (keeps_samrLookupNames _ _) (fun _ => ?_)
      refine pres_bind (pres_callE _ _) (fun _ => ?_)
      refine pres_bind (keeps_setUser _) (fun _ => ?_)
      refine pres_bind (pres_callE _ _) (fun _ => ?_)
      exact pres_emit _

/-- With a supplied computer name the RPC engine body never touches the
descriptor's name field. -/
theorem samrBody_keeps_name (cfg : Descriptor) (o : SamrOracle) (fuel : Nat) (n : String)
    (hn : cfg.computerName = some n) : Pres St.computerName (samrBody cfg o fuel) := by
  unfold samrBody
  refine pres_bind (pres_callE _ _) (fun _ => ?_)
  refine pres_bind (pres_callE _ _) (fun _ => ?_)
  refine pres_bind (pres_callE _ _) (fun _ => ?_)
  refine pres_bind (keeps_setServ _) (fun _ => ?_)
  refine pres_bind (pres_callE _ _) (fun _ => ?_)
  refine pres_bind (keeps_selectDomain _ _) (fun sel => ?_)
  unfold samrWithDomain
  refine pres_bind (pres_callE _ _) (fun _ => ?_)
  refine pres_bind (pres_callE _ _) (fun _ => ?_)
  refine pres_bind (keeps_setDom _) (fun _ => ?_)
  refine pres_bind (keeps_userPhase _ _ _ _ n hn) (fun _ => ?_)
  exact keeps_finishPhase _ _

/-- With a supplied computer name the directory engine body never touches
the descriptor's name field. -/
theorem ldapBody_keeps_name (cfg : Descriptor) (o : LdapOracle) (fuel : Nat) (n : String)
    (hn : cfg.computerName = some n) : Pres LSt.computerName (ldapBody cfg o fuel) := by
  unfold ldapBody
  simp only [hn]
  refine pres_bind (pres_callE _ _) (fun _ => ?_)
  refine pres_ite ?_ ?_
  · refine pres_bind pres_getS (fun st => ?_)
    refine pres_bind (pres_callE _ _) (fun _ => ?_)
    refine pres_ite (pres_raise _) ?_
    refine pres_bind (pres_callE _ _) (fun _ => ?_)
    refine pres_bind (pres_ite (pres_callE _ _) (pres_callE _ _)) (fun _ => ?_)
    refine pres_ite (pres_ite (pres_raise _) (pres_raise _)) (pres_ite (pres_emit _) (pres_emit _))
  · refine pres_bind ?_ (fun _ => ?_)
    · refine pres_bind (pres_callE _ _) (fun _ => ?_)
      exact pres_ite (pres_raise _) (pres_ppure _)
    · refine pres_bind pres_getS (fun st => ?_)
      refine pres_bind (pres_callE _ _) (fun _ => ?_)
      refine pres_ite ?_ (pres_emit _)
      refine pres_ite ?_ (pres_ite (pres_raise _) (pres_raise _))
      split
      · exact pres_raise _
      · refine pres_ite ?_ (pres_raise _)
        refine pres_bind (pres_emit _) (fun _ => ?_)
        refine pres_ite ?_ (pres_ppure _)
        refine pres_bind (pres_emit _) (fun _ => ?_)
        exact pres_bind (pres_callE _ _) (fun _ => pres_ppure _)

/-- C2: in the directory Create path, when the add is refused with an
"unwilling to perform" result whose parsed hexadecimal sub-code is
`0x216D`, the quota-bypass fallback is attempted exactly once if and only
if the authenticating principal's username ends with the trailing marker;
any other parsed sub-code raises the generic operation error (the raw
result string) instead, and no fallback is attempted. -/
theorem quota_fallback_iff_machine_account :
    ∀ (cfg : Descriptor) (o : LdapOracle) (fuel : Nat) (n : String) (res : LdapResult)
      (c : Nat) (r : LdapsRun),
      cfg.noAdd = false → cfg.delete = false → cfg.computerName = some n →
      o.setupR = Except.ok () →
      o.existsR n = Except.ok false →
      (∀ d, o.addR d = Except.ok (false, res)) →
      res.result = RESULT_UNWILLING_TO_PERFORM →
      parseSubCode res.message = some c →
      run_ldaps cfg o fuel = some r →
      ((c = 0x216D →
        r.trace.count LEv.bypassAttempt =
          (if endsWithChar cfg.username '$' then 1 else 0)) ∧
       (c ≠ 0x216D →
        r.trace.count LEv.bypassAttempt = 0 ∧ r.bodyErr = some (ldapResultStr res))) := by
  intro cfg o fuel n res c r hnoAdd hdel hname hsetup hex hadd hres hsub hr
  unfold run_ldaps ldapBody at hr
  simp [hnoAdd, hdel, hname, hsetup, hex, hadd, hres, hsub, bind_def, pbind, ppure,
    emit, raise, callE, getS, setNameL,
    RESULT_UNWILLING_TO_PERFORM, RESULT_INSUFFICIENT_ACCESS_RIGHTS] at hr
  constructor
  · intro h216
    subst h216
    simp only [if_pos rfl] at hr
    by_cases hend : endsWithChar cfg.username '$' = true
    · rw [if_pos hend] at hr
      rcases hb : o.bypassR with e | b
      · rw [hb] at hr
        simp [pbind, emit, callE, ppure] at hr
        rw [← hr]
        simp [hend, List.count_cons]
      · rw [hb] at hr
        simp [pbind, emit, callE, ppure] at hr
        rw [← hr]
        simp [hend, List.count_cons]
    · rw [if_neg hend] at hr
      simp [pbind, emit, callE, ppure] at hr
      rw [← hr]
      simp [hend, List.count_cons]
  · intro h216
    rw [if_neg h216] at hr
    simp [pbind, emit, callE, ppure, raise] at hr
    rw [← hr]
    refine ⟨?_, rfl⟩
    simp [List.count_cons]

/-- Witness for C2 at a concrete quota-refused run of a machine-account
principal: the fallback is attempted exactly once. -/
theorem quota_fallback_iff_machine_account_witness :
    ((run_ldaps cfgQuota ldapQuota 1).getD emptyLdapsRun).trace.count LEv.bypassAttempt = 1 :=
  (quota_fallback_iff_machine_account cfgQuota ldapQuota 1 "WS01$"
    ⟨53, "0000216D: SvcErr: DSID"⟩ 0x216D _ rfl rfl rfl rfl rfl (fun _ => rfl) rfl rfl
    (by rfl)).1 rfl

/-- C3 (amended): after resolution, when the descriptor carries a supplied
computer name, no engine execution modifies any descriptor field: at engine
exit the descriptor's computer name — the only field either engine ever
assigns — still equals its value at resolution time.  When no name was
supplied, the name-generation loop assigns the generated name to the
descriptor (see the counterexample). -/
theorem descriptor_unchanged_when_name_supplied :
    ∀ (cfg : Descriptor) (n : String), cfg.computerName = some n →
      (∀ (o : SamrOracle) (fuel : Nat) (r : SamrRun),
        doSAMRAdd cfg o fuel = some r → r.finalName = cfg.computerName) ∧
      (∀ (o : LdapOracle) (fuel : Nat) (r : LdapsRun),
        run_ldaps cfg o fuel = some r → r.finalName = cfg.computerName) := by
  intro cfg n hn
  constructor
  · intro o fuel r hr
    have hkeep := samrBody_keeps_name cfg o fuel n hn (initSt cfg)
    unfold doSAMRAdd at hr
    rcases hB : samrBody cfg o fuel (initSt cfg) with ⟨btr, s1, rres⟩
    rw [hB] at hr hkeep
    have hs1 : s1.computerName = cfg.computerName := hkeep
    cases rres with
    | oot => simp at hr
    | ok a =>
        rcases hT : samrTeardown o s1 with ⟨ttr, terr⟩
        simp [hT] at hr
        rw [← hr]
        exact hs1
    | err e =>
        rcases hT : samrTeardown o s1 with ⟨ttr, terr⟩
        simp [hT] at hr
        rw [← hr]
        exact hs1
  · intro o fuel r hr
    have hkeep := ldapBody_keeps_name cfg o fuel n hn { computerName := cfg.computerName }
    unfold run_ldaps at hr
    rcases hB : ldapBody cfg o fuel { computerName := cfg.computerName } with ⟨btr, s1, rres⟩
    rw [hB] at hr hkeep
    have hs1 : s1.computerName = cfg.computerName := hkeep
    cases rres with
    | oot => simp at hr
    | ok a =>
        simp at hr
        rw [← hr]
        exact hs1
    | err e =>
        simp at hr
        rw [← hr]
        exact hs1

/-- Witness for C3 (amended) at a concrete directory run with a supplied
name: the descriptor's name at exit equals its value at entry. -/
theorem descriptor_unchanged_witness :
    ((run_ldaps cfgLdapCreate ldapAllOk 1).getD emptyLdapsRun).finalName =
      cfgLdapCreate.computerName :=
  (descriptor_unchanged_when_name_supplied cfgLdapCreate "WS01$" rfl).2 ldapAllOk 1 _ (by rfl)

/-- Counterexample for C3 as stated: a Create run with no supplied name —
the descriptor's computer-name field is `none` at resolution time, yet at
engine exit it holds the generated name, so the descriptor was modified by
an engine operation. -/
theorem descriptor_mutation_cex :
    cfgLdapNoName.computerName = none ∧
    (run_ldaps cfgLdapNoName ldapAllOk 5).map LdapsRun.finalName =
      some (some "DESKTOP-AAAAAAAA$") :=
  ⟨rfl, rfl⟩

/-- C4 (amended): every error raised inside an engine body is caught in
that run routine and logged at critical severity; what can escape instead
is an error of the `run_samr` transport setup (no handler wraps it, see
the counterexample) or one raised by the finalizer's own close/disconnect
calls (`outcome = tdErr`). -/
theorem engine_errors_caught_and_logged :
    (∀ (cfg : Descriptor) (o : SamrOracle) (fuel : Nat) (r : SamrRun),
      doSAMRAdd cfg o fuel = some r →
        r.outcome = r.tdErr ∧
        ∀ e, r.bodyErr = some e → Ev.logCritical (exnMsg e) ∈ r.trace) ∧
    (∀ (cfg : Descriptor) (o : LdapOracle) (fuel : Nat) (r : LdapsRun),
      run_ldaps cfg o fuel = some r →
        ∀ e, r.bodyErr = some e → LEv.logCritical e ∈ r.trace) := by
  constructor
  · intro cfg o fuel r hr
    unfold doSAMRAdd at hr
    rcases hB : samrBody cfg o fuel (initSt cfg) with ⟨btr, s1, rres⟩
    rw [hB] at hr
    cases rres with
    | oot => simp at hr
    | ok a =>
        rcases hT : samrTeardown o s1 with ⟨ttr, terr⟩
        simp [hT] at hr
        rw [← hr]
        exact ⟨rfl, by intro e he; simp at he⟩
    | err e =>
        rcases hT : samrTeardown o s1 with ⟨ttr, terr⟩
        simp [hT] at hr
        rw [← hr]
        refine ⟨rfl, ?_⟩
        intro e2 he2
        simp at he2
        rw [← he2]
        simp
  · intro cfg o fuel r hr
    unfold run_ldaps at hr
    rcases hB : ldapBody cfg o fuel { computerName := cfg.computerName } with ⟨btr, s1, rres⟩
    rw [hB] at hr
    cases rres with
    | oot => simp at hr
    | ok a =>
        simp at hr
        rw [← hr]
        intro e he
        simp at he
    | err e =>
        simp at hr
        rw [← hr]
        intro e2 he2
        simp at he2
        rw [← he2]
        simp

/-- Witness for C4 (amended): a denied directory add is caught and its
message is logged critical inside `run_ldaps`. -/
theorem engine_errors_caught_witness :
    LEv.logCritical "User rider doesn\x27t have right to create a machine account!" ∈
      ((run_ldaps cfgLdapCreate ldapDenied 1).getD emptyLdapsRun).trace :=
  engine_errors_caught_and_logged.2 cfgLdapCreate ldapDenied 1 _ (by rfl)
    "User rider doesn\x27t have right to create a machine account!" (by rfl)

/-- Counterexample for C4 as stated: with the endpoint-mapper lookup
failing — one of the collaborator behaviours the claim quantifies over —
`run_samr` lets the error propagate to its caller as an unhandled fault
(`outcome` carries it) and nothing is logged at critical severity. -/
theorem run_samr_propagates_cex :
    run_samr cfgSamrCreate oracleHeptFail 1 =
      some ⟨[Ev.heptMap], none, none,
        some (SamrExn.generalExn "Connection refused"), some "WS01$"⟩ :=
  rfl

/-- With more than one candidate and no unique NetBIOS match, domain
selection logs the diagnostics, lists every enumerated domain and raises
the empty-message exception. -/
theorem samrSelectDomain_ambiguous (cfg : Descriptor) (ds : List String)
    (hgt : (ds.filter (fun d => strLower d ≠ "builtin")).length > 1)
    (hne : (ds.filter (fun d => strLower d = cfg.domainNetbios)).length ≠ 1) :
    ∀ s, samrSelectDomain cfg ds s =
      (Ev.logCritical ("This server provides multiple domains and \x27" ++
          cfg.domainNetbios ++ "\x27 isn\x27t one of them.") ::
        Ev.logCritical "Available domain(s):" ::
        (ds.map (fun d => Ev.logError (" * " ++ d)) ++
          [Ev.logCritical "Consider using -domain-netbios argument to specify which one you meant."]),
       s, Res.err (SamrExn.generalExn "")) := by
  intro s
  simp only [gt_iff_lt] at hgt
  simp at hgt hne
  simp [samrSelectDomain, hgt, hne, bind_def, pbind, emit, raise, logDomains_run]

/-- With more than one candidate and a unique NetBIOS match, domain
selection silently returns the matched name. -/
theorem samrSelectDomain_unique (cfg : Descriptor) (ds : List String) (d : String)
    (hgt : (ds.filter (fun d2 => strLower d2 ≠ "builtin")).length > 1)
    (hm : ds.filter (fun d2 => strLower d2 = cfg.domainNetbios) = [d]) :
    ∀ s, samrSelectDomain cfg ds s = ([], s, Res.ok d) := by
  intro s
  simp only [gt_iff_lt] at hgt
  simp at hgt
  simp [samrSelectDomain, hgt, hm, bind_def, pbind, emit, raise, ppure]

/-- The first collaborator call after domain selection is the SID lookup
of the selected domain. -/
theorem samrWithDomain_lookup_first (cfg : Descriptor) (o : SamrOracle) (fuel : Nat)
    (sel : String) : ∀ s, Ev.lookupDomain sel ∈ (samrWithDomain cfg o fuel sel s).1 := by
  intro s
  unfold samrWithDomain
  simp only [bind_def]
  exact mem_trace_pbind_left (by simp [callE])

/-- C5: in the RPC engine, with more than one candidate domain remaining
after the built-in domain is filtered out, the run fails with the
ambiguous-domain error — logging every enumerated domain (hence every
candidate) — whenever the configured NetBIOS name does not match exactly
one enumerated domain (lower-cased server name equal to the configured
name); when it matches exactly one, that domain is the one selected for
the SID lookup. -/
theorem ambiguous_domain_requires_netbios :
    ∀ (cfg : Descriptor) (o : SamrOracle) (fuel : Nat) (ds : List String) (r : SamrRun),
      o.connectR = Except.ok () →
      o.bindR = Except.ok () →
      (∃ sh, o.connect5R = Except.ok sh) →
      o.enumDomainsR = Except.ok ds →
      (ds.filter (fun d => strLower d ≠ "builtin")).length > 1 →
      doSAMRAdd cfg o fuel = some r →
      (((ds.filter (fun d => strLower d = cfg.domainNetbios)).length ≠ 1 →
          r.bodyErr = some (SamrExn.generalExn "") ∧
          ∀ d ∈ ds, Ev.logError (" * " ++ d) ∈ r.trace) ∧
       (∀ d, ds.filter (fun d2 => strLower d2 = cfg.domainNetbios) = [d] →
          Ev.lookupDomain d ∈ r.trace)) := by
  intro cfg o fuel ds r hconn hbind hc5e henum hgt hr
  obtain ⟨sh, hc5⟩ := hc5e
  unfold doSAMRAdd at hr
  rcases hB : samrBody cfg o fuel (initSt cfg) with ⟨btr, s1, rres⟩
  rw [hB] at hr
  constructor
  · intro hne
    have hsel := samrSelectDomain_ambiguous cfg ds hgt hne
    unfold samrBody at hB
    simp [hconn, hbind, hc5, henum, hsel, bind_def, pbind, callE, setServ] at hB
    obtain ⟨hbtr, hs1, hres⟩ := hB
    cases rres with
    | oot => simp at hres
    | ok a => simp at hres
    | err e =>
        rcases hT : samrTeardown o s1 with ⟨ttr, terr⟩
        simp [hT] at hr
        simp at hres
        rw [← hr]
        constructor
        · simp [← hres]
        · intro d hd
          rw [← hbtr]
          simp
          exact Or.inl ⟨d, hd, rfl⟩
  · intro d hm
    have hsel := samrSelectDomain_unique cfg ds d hgt hm
    have hmem : Ev.lookupDomain d ∈ btr := by
      unfold samrBody at hB
      simp [hconn, hbind, hc5, henum, hsel, bind_def, pbind, callE, setServ] at hB
      rw [← hB.1]
      simp
      exact samrWithDomain_lookup_first cfg o fuel d _
    cases rres with
    | oot => simp at hr
    | ok a =>
        rcases hT : samrTeardown o s1 with ⟨ttr, terr⟩
        simp [hT] at hr
        rw [← hr]
        simp
        exact Or.inl hmem
    | err e =>
        rcases hT : samrTeardown o s1 with ⟨ttr, terr⟩
        simp [hT] at hr
        rw [← hr]
        simp
        exact Or.inl hmem

/-- Witness for C5: two non-builtin domains, NetBIOS name matching `CORP`
only — the `CORP` domain is the one looked up. -/
theorem ambiguous_domain_requires_netbios_witness :
    Ev.lookupDomain "CORP" ∈ ((doSAMRAdd cfgNetbios oracleTwoDomains 5).getD emptySamrRun).trace :=
  (ambiguous_domain_requires_netbios cfgNetbios oracleTwoDomains 5 ["Builtin", "CORP", "DEV"]
    _ rfl rfl ⟨11, rfl⟩ rfl (by decide) (by rfl)).2 "CORP" (by rfl)

/-- With a single non-builtin domain enumerated, selection silently picks
it. -/
theorem samrSelectDomain_single (cfg : Descriptor) (ds : List String) (dom : String)
    (hf : ds.filter (fun d => strLower d ≠ "builtin") = [dom]) :
    ∀ s, samrSelectDomain cfg ds s = ([], s, Res.ok dom) := by
  intro s
  simp at hf
  simp [samrSelectDomain, hf, bind_def, pbind, ppure]

/-- The existence-check block of the supplied-name Create path always
raises when the name lookup keeps succeeding: either the already-exists
exception or the re-raised protocol error. -/
theorem samrExistsBlock_err (o : SamrOracle) (n : String)
    (hlook : ∀ j, ∃ rid, o.lookupNamesR j n = Except.ok rid) :
    AlwaysErr (pcatch
      (do let _ ← samrLookupNames o n
          raise (SamrExn.generalExn (msgAlreadyExists n)))
      (fun e =>
        match e with
        | SamrExn.sessionError c =>
            if c ≠ 0xc0000073 then raise (SamrExn.sessionError c) else ppure ()
        | e2 => raise e2) : SProc Unit) := by
  intro s
  obtain ⟨rid, hj⟩ := hlook s.lk
  refine ⟨SamrExn.generalExn (msgAlreadyExists n), ?_⟩
  simp [pcatch, bind_def, pbind, samrLookupNames, raise, hj]

/-- C8: for every Create with an explicitly supplied computer name whose
target already exists, the operation aborts with the already-exists error
before any create call: over RPC, when every lookup of that name
succeeds, no create-user call ever appears in the trace and (when the
session phases succeed) the body error is the already-exists exception;
over the directory, when the existence search returns true, no add call
ever appears in the trace and (when the bind succeeded) the body error is
the already-exists message. -/
theorem create_aborts_when_exists :
    (∀ (cfg : Descriptor) (o : SamrOracle) (fuel : Nat) (n : String) (r : SamrRun),
      cfg.computerName = some n → cfg.noAdd = false → cfg.delete = false →
      (∀ j, ∃ rid, o.lookupNamesR j n = Except.ok rid) →
      doSAMRAdd cfg o fuel = some r →
      ∀ m, Ev.createUser m ∉ r.trace) ∧
    (∀ (cfg : Descriptor) (o : SamrOracle) (fuel : Nat) (n dom : String)
      (sh sid dh rid : Nat) (ds : List String) (r : SamrRun),
      cfg.computerName = some n → cfg.noAdd = false → cfg.delete = false →
      o.connectR = Except.ok () → o.bindR = Except.ok () → o.connect5R = Except.ok sh →
      o.enumDomainsR = Except.ok ds →
      ds.filter (fun d => strLower d ≠ "builtin") = [dom] →
      o.lookupDomainR dom = Except.ok sid → o.openDomainR sid = Except.ok dh →
      o.lookupNamesR 0 n = Except.ok rid →
      doSAMRAdd cfg o fuel = some r →
      r.bodyErr = some (SamrExn.generalExn (msgAlreadyExists n))) ∧
    (∀ (cfg : Descriptor) (o : LdapOracle) (fuel : Nat) (n : String) (r : LdapsRun),
      cfg.computerName = some n → cfg.noAdd = false → cfg.delete = false →
      o.existsR n = Except.ok true →
      run_ldaps cfg o fuel = some r →
      (∀ d, LEv.addComputer d ∉ r.trace) ∧
      (o.setupR = Except.ok () → r.bodyErr = some (msgAlreadyExists n))) := by
  refine ⟨?_, ?_, ?_⟩
  · intro cfg o fuel n r hn hno hdel hlook hr m
    have hbody : TraceInv (fun e => ∀ m2, e ≠ Ev.createUser m2) (samrBody cfg o fuel) := by
      unfold samrBody
      refine tinv_bind (tinv_callE (by simp)) (fun _ => ?_)
      refine tinv_bind (tinv_callE (by simp)) (fun _ => ?_)
      refine tinv_bind (tinv_callE (by simp)) (fun _ => ?_)
      refine tinv_bind (tinv_setServ _) (fun _ => ?_)
      refine tinv_bind (tinv_callE (by simp)) (fun _ => ?_)
      refine tinv_bind (tinv_selectDomain cfg _ (fun m2 => by simp) (fun m2 => by simp))
        (fun sel => ?_)
      unfold samrWithDomain
      refine tinv_bind (tinv_callE (by simp)) (fun _ => ?_)
      refine tinv_bind (tinv_callE (by simp)) (fun _ => ?_)
      refine tinv_bind (tinv_setDom _) (fun _ => ?_)
      refine tinv_bind ?_ (fun _ => tinv_finishPhase cfg o (fun h => by simp)
        (fun m2 => by simp) (fun h => by simp) (fun nm => by simp) (fun a b => by simp)
        (fun h => by simp))
      unfold samrUserPhase
      refine tinv_ite ?_ ?_
      · refine tinv_bind tinv_getS (fun st => ?_)
        refine tinv_bind (tinv_pcatch (tinv_samrLookupNames o _ (by simp)) (fun x => ?_))
          (fun _ => ?_)
        · cases x with
          | sessionError c => exact tinv_ite (tinv_raise _) (tinv_raise _)
          | generalExn m2 => exact tinv_raise _
        · refine tinv_bind (tinv_pcatch (tinv_callE (by simp)) (fun x => ?_)) (fun _ => ?_)
          · cases x with
            | sessionError c => exact tinv_ite (tinv_raise _) (tinv_raise _)
            | generalExn m2 => exact tinv_raise _
          · exact tinv_setUser _
      · simp only [hn]
        refine tinv_bind_err ?_ (samrExistsBlock_err o n hlook)
        refine tinv_pcatch (tinv_bind (tinv_samrLookupNames o _ (by simp))
          (fun _ => tinv_raise _)) (fun x => ?_)
        cases x with
        | sessionError c => exact tinv_ite (tinv_raise _) (tinv_ppure _)
        | generalExn m2 => exact tinv_raise _
    intro hmem
    unfold doSAMRAdd at hr
    rcases hB : samrBody cfg o fuel (initSt cfg) with ⟨btr, s1, rres⟩
    rw [hB] at hr
    have hbtr := hbody (initSt cfg)
    rw [hB] at hbtr
    cases rres with
    | oot => simp at hr
    | ok a =>
        rcases hT : samrTeardown o s1 with ⟨ttr, terr⟩
        simp [hT] at hr
        rw [← hr] at hmem
        have hmem2 : Ev.createUser m ∈ btr ++ ttr := hmem
        rcases List.mem_append.mp hmem2 with h | h
        · exact hbtr _ h m rfl
        · have := samrTeardown_events o s1 _ (by rw [hT]; exact h)
          simp [isTeardownEv] at this
    | err x =>
        rcases hT : samrTeardown o s1 with ⟨ttr, terr⟩
        simp [hT] at hr
        rw [← hr] at hmem
        have hmem2 : Ev.createUser m ∈ btr ++ Ev.logCritical (exnMsg x) :: ttr := hmem
        rcases List.mem_append.mp hmem2 with h | h
        · exact hbtr _ h m rfl
        · rcases List.mem_cons.mp h with h2 | h3
          · simp at h2
          · have := samrTeardown_events o s1 _ (by rw [hT]; exact h3)
            simp [isTeardownEv] at this
  · intro cfg o fuel n dom sh sid dh rid ds r hn hno hdel hconn hbind hc5 henum hf hLD hOD hl0 hr
    have hsel := samrSelectDomain_single cfg ds dom hf
    unfold doSAMRAdd at hr
    rcases hB : samrBody cfg o fuel (initSt cfg) with ⟨btr, s1, rres⟩
    rw [hB] at hr
    unfold samrBody samrWithDomain samrUserPhase at hB
    simp [hn, hno, hdel, hconn, hbind, hc5, henum, hsel, hLD, hOD, hl0, initSt, bind_def,
      pbind, callE, setServ, setDom, getS, pcatch, samrLookupNames, raise, ppure] at hB
    obtain ⟨hbtr, hs1, hres⟩ := hB
    cases rres with
    | oot => simp at hres
    | ok a => simp at hres
    | err x =>
        rcases hT : samrTeardown o s1 with ⟨ttr, terr⟩
        simp [hT] at hr
        simp at hres
        rw [← hr]
        simp [← hres]
  · intro cfg o fuel n r hn hno hdel hex hr
    unfold run_ldaps ldapBody at hr
    rcases hsetup : o.setupR with x | u
    · simp [hsetup, hno, hdel, hn, bind_def, pbind, callE, ppure, raise, getS] at hr
      constructor
      · intro d
        rw [← hr]
        simp
      · intro hok
        exact Except.noConfusion hok
    · simp [hsetup, hno, hdel, hn, hex, bind_def, pbind, callE, ppure, raise, getS] at hr
      constructor
      · intro d
        rw [← hr]
        simp
      · intro _
        rw [← hr]

/-- Witness for C8 at a concrete directory run whose target exists. -/
theorem create_aborts_when_exists_witness :
    (∀ d, LEv.addComputer d ∉
      ((run_ldaps cfgLdapCreate ldapExists 1).getD emptyLdapsRun).trace) ∧
    (ldapExists.setupR = Except.ok () →
      ((run_ldaps cfgLdapCreate ldapExists 1).getD emptyLdapsRun).bodyErr =
        some (msgAlreadyExists "WS01$")) :=
  create_aborts_when_exists.2.2 cfgLdapCreate ldapExists 1 "WS01$" _ rfl rfl rfl rfl (by rfl)

/-- C10: in a successful RPC Create run with a supplied name, the handle
returned by create-user receives the password-set call and is then
replaced by the handle obtained from re-opening the user with maximal
rights (which receives the set-information call); the finalizer closes
exactly the re-opened user handle, the domain handle and the server
handle, in that order, so the original create-user handle is never passed
to close-handle. -/
theorem create_handle_overwritten :
    ∀ (cfg : Descriptor) (o : SamrOracle) (fuel : Nat) (n dom : String)
      (sh sid dh rid hc hr2 : Nat) (ds : List String) (r : SamrRun),
      cfg.computerName = some n → cfg.noAdd = false → cfg.delete = false →
      o.connectR = Except.ok () → o.bindR = Except.ok () → o.connect5R = Except.ok sh →
      o.enumDomainsR = Except.ok ds →
      ds.filter (fun d => strLower d ≠ "builtin") = [dom] →
      o.lookupDomainR dom = Except.ok sid → o.openDomainR sid = Except.ok dh →
      o.lookupNamesR 0 n = Except.error (SamrExn.sessionError 0xc0000073) →
      o.createUserR n = Except.ok hc →
      o.setPasswordR hc = Except.ok () →
      o.lookupNamesR 1 n = Except.ok rid →
      o.openUserR MAXIMUM_ALLOWED rid = Except.ok hr2 →
      o.setInfoR hr2 = Except.ok () →
      o.closeHandleR hr2 = Except.ok () → o.closeHandleR dh = Except.ok () →
      o.closeHandleR sh = Except.ok () → o.disconnectR = Except.ok () →
      doSAMRAdd cfg o fuel = some r →
      r.bodyErr = none ∧
      Ev.setPassword hc ∈ r.trace ∧
      Ev.setInfo hr2 ∈ r.trace ∧
      r.trace.filterMap closeArg = [hr2, dh, sh] ∧
      (hc ≠ hr2 → hc ≠ dh → hc ≠ sh → Ev.closeHandle hc ∉ r.trace) := by
  intro cfg o fuel n dom sh sid dh rid hc hr2 ds r hn hno hdel hconn hbind hc5 henum hf
    hLD hOD hl0 hcu hsp hl1 hou hsi hclu hcld hcls hdisc hr
  have hsel := samrSelectDomain_single cfg ds dom hf
  unfold doSAMRAdd at hr
  rcases hB : samrBody cfg o fuel (initSt cfg) with ⟨btr, s1, rres⟩
  rw [hB] at hr
  unfold samrBody samrWithDomain samrUserPhase samrFinishPhase at hB
  simp [hn, hno, hdel, hconn, hbind, hc5, henum, hsel, hLD, hOD, hl0, hcu, hsp, hl1, hou,
    hsi, initSt, bind_def, pbind, callE, setServ, setDom, setUser, getS, pcatch,
    samrLookupNames, raise, ppure, emit] at hB
  obtain ⟨hbtr, hs1, hres⟩ := hB
  cases rres with
  | oot => simp at hres
  | err x => simp at hres
  | ok a =>
      have hT : samrTeardown o s1 =
          ([Ev.closeHandle hr2, Ev.closeHandle dh, Ev.closeHandle sh, Ev.disconnect],
            none) := by
        rw [← hs1]
        simp [samrTeardown, closeCall, thenTd, disconnectCall, hclu, hcld, hcls, hdisc]
      simp [hT] at hr
      rw [← hr]
      refine ⟨rfl, ?_, ?_, ?_, ?_⟩
      · rw [← hbtr]
        simp
      · rw [← hbtr]
        simp
      · rw [← hbtr]
        simp [closeArg]
      · intro h1 h2 h3
        rw [← hbtr]
        simp [h1, h2, h3]

/-- Witness for C10 at a concrete successful create run: password set on
the create handle `33`, account-control set on the re-opened handle `44`,
closes exactly `44`, `22`, `11`. -/
theorem create_handle_overwritten_witness :
    ((doSAMRAdd cfgSamrCreate oracleAllOk 5).getD emptySamrRun).bodyErr = none ∧
    Ev.setPassword 33 ∈ ((doSAMRAdd cfgSamrCreate oracleAllOk 5).getD emptySamrRun).trace ∧
    Ev.setInfo 44 ∈ ((doSAMRAdd cfgSamrCreate oracleAllOk 5).getD emptySamrRun).trace ∧
    ((doSAMRAdd cfgSamrCreate oracleAllOk 5).getD emptySamrRun).trace.filterMap closeArg =
      [44, 22, 11] ∧
    ((33 : Nat) ≠ 44 → (33 : Nat) ≠ 22 → (33 : Nat) ≠ 11 →
      Ev.closeHandle 33 ∉ ((doSAMRAdd cfgSamrCreate oracleAllOk 5).getD emptySamrRun).trace) :=
  create_handle_overwritten cfgSamrCreate oracleAllOk 5 "WS01$" "CORP" 11 77 22 500 33 44
    ["Builtin", "CORP"] _ rfl rfl rfl rfl rfl rfl rfl (by rfl) rfl rfl rfl rfl rfl rfl rfl
    rfl rfl rfl rfl rfl (by rfl)

/-- C7: every generated computer name is `DESKTOP-` followed by exactly
eight characters from the uppercase/digit alphabet and the trailing
marker; and both engines' name-generation/existence-probe loops return
only a name whose existence check reported absent (RPC: name lookup
raised `0xc0000073`; directory: search found no entry). -/
theorem generated_names_pattern_and_probe :
    (∀ choice : Nat → Nat, ∃ l : List Char,
      (generateComputerName choice).toList = "DESKTOP-".toList ++ l ++ ['$'] ∧
      l.length = 8 ∧ ∀ c ∈ l, c ∈ samAlphabet) ∧
    (∀ (o : SamrOracle) (fuel i : Nat) (s : St) (tr : List Ev) (s2 : St) (name : String),
      samrProbeLoop o fuel i s = (tr, s2, Res.ok name) →
      (∃ j, o.lookupNamesR j name = Except.error (SamrExn.sessionError 0xc0000073)) ∧
      ∃ k, name = generateComputerName (o.choices k)) ∧
    (∀ (o : LdapOracle) (fuel i : Nat) (s : LSt) (tr : List LEv) (s2 : LSt) (name : String),
      ldapProbeLoop o fuel i s = (tr, s2, Res.ok name) →
      o.existsR name = Except.ok false ∧
      ∃ k, name = generateComputerName (o.choices k)) := by
  refine ⟨?_, fun o fuel i s tr s2 name => samrProbeLoop_ok o fuel i s tr s2 name,
    fun o fuel i s tr s2 name => ldapProbeLoop_ok o fuel i s tr s2 name⟩
  intro choice
  refine ⟨(List.range 8).map (fun i => pickChar (choice i)),
    generateComputerName_toList choice, by simp, ?_⟩
  intro c hc
  simp only [List.mem_map] at hc
  obtain ⟨i, _, hi⟩ := hc
  exact hi ▸ pickChar_mem (choice i)

/-- Witness for C7: the directory loop at an all-absent backend returns
the concrete generated name on its first probe. -/
theorem generated_names_pattern_and_probe_witness :
    ldapAllOk.existsR "DESKTOP-AAAAAAAA$" = Except.ok false ∧
    ∃ k, "DESKTOP-AAAAAAAA$" = generateComputerName (ldapAllOk.choices k) :=
  generated_names_pattern_and_probe.2.2 ldapAllOk 1 0 { computerName := none }
    [LEv.searchComputer "DESKTOP-AAAAAAAA$"] { computerName := some "DESKTOP-AAAAAAAA$" }
    "DESKTOP-AAAAAAAA$" (by rfl)

/-- C9: for every nonempty supplied computer name lacking the trailing
marker, resolution appends exactly one trailing marker (the resolved name
is the supplied name followed by `$`), and resolution is idempotent on the
name: resolving an already-resolved name returns it unchanged. -/
theorem resolve_name_appends_marker :
    (∀ name : String, name.toList ≠ [] → name.toList.getLast? ≠ some '$' →
      resolveComputerName name = some (name ++ "$")) ∧
    (∀ name r : String, resolveComputerName name = some r →
      resolveComputerName r = some r) := by
  constructor
  · intro name hne hnd
    unfold resolveComputerName
    cases h : name.toList.getLast? with
    | none => exact absurd (List.getLast?_eq_none_iff.mp h) hne
    | some c =>
        have hc : c ≠ '$' := fun hc => hnd (hc ▸ h)
        simp [hc]
  · intro name r h
    unfold resolveComputerName at h ⊢
    cases h2 : name.toList.getLast? with
    | none => rw [h2] at h; exact absurd h (by simp)
    | some c =>
        rw [h2] at h
        by_cases hc : c = '$'
        · simp [hc] at h
          subst h
          rw [h2]
          simp [hc]
        · simp [hc] at h
          subst h
          have hl : (name ++ "$").toList = name.toList ++ ['$'] := String.data_append name "$"
          rw [hl, List.getLast?_concat]
          simp

/-- Witness for C9 at the concrete names `WS01` and `WS01$`. -/
theorem resolve_name_appends_marker_witness :
    resolveComputerName "WS01" = some ("WS01" ++ "$") ∧
    resolveComputerName "WS01$" = some "WS01$" :=
  ⟨resolve_name_appends_marker.1 "WS01" (by decide) (by decide),
   resolve_name_appends_marker.2 "WS01$" "WS01$" (by rfl)⟩

/-- Counterexample for C9 as stated: the empty string is a supplied name
lacking the trailing marker, but resolution raises `IndexError` on
`name[-1]` instead of producing the name with a marker appended; the
constructor fails and no descriptor is built. -/
theorem resolve_name_empty_cex :
    resolveComputerName "" = none ∧
    resolveDescriptor optsEmptyName pw0 = Except.error "string index out of range" :=
  ⟨rfl, rfl⟩

/-- C6: SetPassword (`-no-add`) or Delete without a computer name fails at
resolution with the source's configuration error, and the whole tool run
reports that error without any engine — hence any network call — running,
for every collaborator behaviour. -/
theorem config_error_before_network :
    ∀ (opts : Options) (pw : Nat → Nat),
      (opts.method = "SAMR" ∨ opts.method = "LDAPS") →
      ¬(opts.k = true ∧ opts.dc_host = none) →
      opts.computer_name = none →
      (opts.no_add = true ∨ opts.delete = true) →
      resolveDescriptor opts pw = Except.error
        (if opts.no_add then "You have to provide a computer name when using -no-add."
         else "You have to provide a computer name when using -delete.") ∧
      ∀ (oS : SamrOracle) (oL : LdapOracle) (fuel : Nat),
        runTool opts pw oS oL fuel = some (ToolRun.configError
          (if opts.no_add then "You have to provide a computer name when using -no-add."
           else "You have to provide a computer name when using -delete.")) := by
  intro opts pw hm hk hcn hnd
  have hfirst : ¬(opts.method ≠ "SAMR" ∧ opts.method ≠ "LDAPS") := by
    rcases hm with h | h <;> simp [h]
  have hres : resolveDescriptor opts pw = Except.error
      (if opts.no_add then "You have to provide a computer name when using -no-add."
       else "You have to provide a computer name when using -delete.") := by
    unfold resolveDescriptor
    rw [if_neg hfirst, if_neg hk, hcn]
    rcases hnd with h | h
    · simp [h]
    · cases hna : opts.no_add <;> simp [h]
  refine ⟨hres, ?_⟩
  intro oS oL fuel
  unfold runTool
  rw [hres]

/-- Witness for C6: `-no-add` with no computer name, concrete collaborators. -/
theorem config_error_before_network_witness :
    resolveDescriptor optsNoAddNoName pw0 = Except.error
      (if optsNoAddNoName.no_add then "You have to provide a computer name when using -no-add."
       else "You have to provide a computer name when using -delete.") ∧
    runTool optsNoAddNoName pw0 oracleAllOk ldapAllOk 1 = some (ToolRun.configError
      (if optsNoAddNoName.no_add then "You have to provide a computer name when using -no-add."
       else "You have to provide a computer name when using -delete.")) := by
  have h := config_error_before_network optsNoAddNoName pw0 (Or.inl rfl) (by simp [optsNoAddNoName, baseOptions]) rfl (Or.inl rfl)
  exact ⟨h.1, h.2 oracleAllOk ldapAllOk 1⟩

end AddComputer
